import Mathlib

/-!
Verification development for the openclaw `responses-api` channel plugin:
the session-continuity store (`session-store.ts`) and the streaming reply
renderer (`handler.ts`, streaming path).  TypeScript functions are embedded
as executable Lean definitions; timestamps are `Int` milliseconds, JS
strings are Lean `String`s (all inputs considered here are ASCII, where
the JS string primitives agree with the ASCII-level models below).
-/

namespace OpenClaw

/-! ### JS string primitives

JavaScript `trim`, `toUpperCase`, `startsWith` and the regex `\s` / `\S`
classes, modelled at the ASCII level on `List Char` so that every
definition evaluates inside the kernel. -/

/-- The JS regex `\s` class / the characters removed by `String.prototype.trim`
(ASCII fragment: space, tab, line feed, carriage return, form feed,
vertical tab). -/
def jsIsWhitespace (c : Char) : Bool :=
  c == ' ' || c == Char.ofNat 9 || c == Char.ofNat 10 || c == Char.ofNat 13 ||
  c == Char.ofNat 12 || c == Char.ofNat 11

/-- JS `String.prototype.toUpperCase` on one character (ASCII fragment). -/
def jsUpperChar (c : Char) : Char :=
  if 97 ≤ c.toNat ∧ c.toNat ≤ 122 then Char.ofNat (c.toNat - 32) else c

/-- JS `String.prototype.toUpperCase` (ASCII fragment). -/
def jsToUpper (s : String) : String :=
  ⟨s.data.map jsUpperChar⟩

/-- JS `String.prototype.trim` (ASCII fragment). -/
def jsTrim (s : String) : String :=
  ⟨((s.data.dropWhile jsIsWhitespace).reverse.dropWhile jsIsWhitespace).reverse⟩

/-- JS `String.prototype.startsWith`. -/
def jsStartsWith (s pre : String) : Bool :=
  s.data.take pre.data.length == pre.data

example : jsToUpper "not silent" = "NOT SILENT" := by decide
example : jsTrim "  a b  " = "a b" := by decide
example : jsStartsWith "NO_REPLY" "NO" = true := by decide
example : jsStartsWith "N" "NO_REPLY" = false := by decide

/-! ### Silent-reply sentinel -/

/-- Modelled from the spec: `SILENT_REPLY_TOKEN` is imported from
`openclaw/plugin-sdk` (not part of this repository's sources).  The spec and
the handler's own comment (`const token = SILENT_REPLY_TOKEN; // "NO_REPLY"`)
fix its value to the reserved sentinel `NO_REPLY`. -/
def SILENT_REPLY_TOKEN : String := "NO_REPLY"

/-- Modelled from the spec: `isSilentReplyText` is imported from
`openclaw/plugin-sdk` (not part of this repository's sources).  Per the spec
(§4.3) a reply is silent when the text "exactly match[es] (after
normalization) a reserved sentinel value"; normalization is modelled as
trimming surrounding whitespace. -/
def isSilentReplyText (text : String) (token : String) : Bool :=
  jsTrim text == token

/-- `couldBecomeSilentReply` from `handler.ts` (streaming path): text that is
still a case-insensitive prefix of the sentinel token (or has the token as a
prefix), with empty/whitespace text always counted as possibly-silent. -/
def couldBecomeSilentReply (text : String) : Bool :=
  let token := SILENT_REPLY_TOKEN
  let textTrimmed := jsToUpper (jsTrim text)
  let tokenUpper := jsToUpper token
  if textTrimmed == "" then true
  else if jsStartsWith tokenUpper textTrimmed || jsStartsWith textTrimmed tokenUpper then true
  else false

example : couldBecomeSilentReply "N" = true := by decide
example : couldBecomeSilentReply "" = true := by decide
example : couldBecomeSilentReply "no_" = true := by decide
example : couldBecomeSilentReply "NO_REPLY also" = true := by decide
example : couldBecomeSilentReply "NOT SILENT" = false := by decide
example : isSilentReplyText "NO_REPLY" SILENT_REPLY_TOKEN = true := by decide
example : isSilentReplyText "NO" SILENT_REPLY_TOKEN = false := by decide

/-! ### `media.ts`: media token stripping, leftover extraction, markdown

The regex-based functions of `media.ts` are embedded as explicit scanners
over `List Char`.  Recursions that consume a computed amount of input use a
`Nat` fuel argument (always called with fuel `> length`), keeping every
definition kernel-evaluable. -/

/-- First six characters spell `MEDIA:` case-insensitively. -/
def matchesMediaTag (l : List Char) : Bool :=
  (l.take 6).map jsUpperChar == "MEDIA:".data

/-- One attempt of the regex `\s*MEDIA:\s*\S+` (flags `gi`) at the head of
`l`: on success returns the remainder after the matched span. -/
def tryMatchMediaToken (l : List Char) : Option (List Char) :=
  let afterWs := l.dropWhile jsIsWhitespace
  if matchesMediaTag afterWs then
    let afterTag := afterWs.drop 6
    let afterWs2 := afterTag.dropWhile jsIsWhitespace
    let token := afterWs2.takeWhile (fun c => !jsIsWhitespace c)
    if token.length == 0 then none else some (afterWs2.drop token.length)
  else none

/-- Left-to-right global replacement of `\s*MEDIA:\s*\S+` by the empty
string (scanning form of `text.replace(MEDIA_TOKEN_INLINE_RE, "")`). -/
def stripMediaAux : Nat → List Char → List Char
  | 0, l => l
  | _ + 1, [] => []
  | fuel + 1, c :: cs =>
    match tryMatchMediaToken (c :: cs) with
    | some rest => stripMediaAux fuel rest
    | none => c :: stripMediaAux fuel cs

/-- `stripMediaTokens` from `media.ts`:
`text.replace(/\s*MEDIA:\s*\S+/gi, "")`. -/
def stripMediaTokens (text : String) : String :=
  ⟨stripMediaAux (text.data.length + 1) text.data⟩

example : stripMediaTokens "hello MEDIA:/tmp/a.png world" = "hello world" := by decide
example : stripMediaTokens "one two three" = "one two three" := by decide
example : stripMediaTokens "NO" = "NO" := by decide

/-- `isRemoteUrl` from `media.ts`: `/^https?:\/\//i`. -/
def isRemoteUrl (src : String) : Bool :=
  jsStartsWith (jsToUpper src) "HTTP://" || jsStartsWith (jsToUpper src) "HTTPS://"

/-- Split text into lines at line feeds (for the `m`-flagged line-anchored
regex `MEDIA_LEFTOVER_RE`). -/
def splitLinesAux : List Char → List Char → List (List Char)
  | acc, [] => [acc.reverse]
  | acc, c :: cs =>
    if c == Char.ofNat 10 then acc.reverse :: splitLinesAux [] cs
    else splitLinesAux (c :: acc) cs

def backtickChar : Char := Char.ofNat 96
def dquoteChar : Char := Char.ofNat 34
def squoteChar : Char := Char.ofNat 39
def lbraceChar : Char := Char.ofNat 123
def rbraceChar : Char := Char.ofNat 125

/-- Characters stripped from the front of a raw candidate:
`/^[\x60"'[{(]+/` (backtick, quotes, opening brackets). -/
def isLeadStripChar (c : Char) : Bool :=
  c == backtickChar || c == dquoteChar || c == squoteChar ||
  c == '[' || c == lbraceChar || c == '('

/-- Characters stripped from the back of a raw candidate:
`/[\x60"'\x7d)\],]+$/` (backtick, quotes, closing brackets, comma). -/
def isTrailStripChar (c : Char) : Bool :=
  c == backtickChar || c == dquoteChar || c == squoteChar ||
  c == rbraceChar || c == ')' || c == ']' || c == ','

/-- The per-match candidate clean-up inside `extractLeftoverMediaTokens`. -/
def cleanCandidate (raw : List Char) : String :=
  jsTrim ⟨((raw.dropWhile isLeadStripChar).reverse.dropWhile isTrailStripChar).reverse⟩

/-- Match of `MEDIA_LEFTOVER_RE` = `/^[ \t]*MEDIA:\s*‵?([^\n]+?)‵?\s*$/gim`
(‵ standing for a backtick) against one whole line, returning the lazy
group: skip `[ \t]*`, require `MEDIA:` case-insensitively, skip whitespace,
an optional backtick, and from the rest peel trailing whitespace and one
optional trailing backtick (the lazy group is the shortest nonempty span
letting the tail match). -/
def lineMediaGroup (line : List Char) : Option (List Char) :=
  let afterIndent := line.dropWhile (fun c => c == ' ' || c == Char.ofNat 9)
  if matchesMediaTag afterIndent then
    let afterTag := afterIndent.drop 6
    let afterWs := afterTag.dropWhile jsIsWhitespace
    let afterTick := if afterWs.head? == some backtickChar then afterWs.drop 1 else afterWs
    let noTrailWs := (afterTick.reverse.dropWhile jsIsWhitespace).reverse
    let grp :=
      if noTrailWs.getLast? == some backtickChar && noTrailWs.length ≥ 2 then
        noTrailWs.dropLast
      else noTrailWs
    if grp.length == 0 then none else some grp
  else none

/-- The replacement decision of `extractLeftoverMediaTokens` for one line:
`some filePath` when the line is a leftover local-media token (line is
dropped and the path collected), `none` when the line stays verbatim. -/
def lineLeftoverPath (line : List Char) : Option String :=
  match lineMediaGroup line with
  | none => none
  | some raw =>
    let candidate := cleanCandidate raw
    if candidate == "" || isRemoteUrl candidate then none
    else
      let filePath := if jsStartsWith candidate "file://" then ⟨candidate.data.drop 7⟩ else candidate
      if jsStartsWith filePath "/" || jsStartsWith filePath "~" || !(filePath.data.contains ':') then
        some filePath
      else none

/-- Collapse runs of three or more line feeds to exactly two
(`cleaned.replace(/\n{3,}/g, "\n\n")`). -/
def collapseNewlinesAux : Nat → List Char → List Char
  | 0, l => l
  | _ + 1, [] => []
  | fuel + 1, c :: cs =>
    if c == Char.ofNat 10 then
      let run := 1 + (cs.takeWhile (fun d => d == Char.ofNat 10)).length
      let rest := cs.dropWhile (fun d => d == Char.ofNat 10)
      (if run ≥ 3 then List.replicate 2 (Char.ofNat 10) else List.replicate run (Char.ofNat 10)) ++
        collapseNewlinesAux fuel rest
    else c :: collapseNewlinesAux fuel cs

def collapseNewlines (s : String) : String :=
  ⟨collapseNewlinesAux (s.data.length + 1) s.data⟩

/-- Join lines back with line feeds. -/
def joinLines (ls : List (List Char)) : List Char :=
  match ls with
  | [] => []
  | [l] => l
  | l :: rest => l ++ Char.ofNat 10 :: joinLines rest

structure LeftoverResult where
  text : String
  mediaUrls : List String
deriving Repr, DecidableEq

/-- `extractLeftoverMediaTokens` from `media.ts`.  The media-resolution
collaborator (`resolveMediaUrls`, which per the spec §6 returns an
externally fetchable URL best-effort, the original string on failure) is
abstracted as the function argument `resolve`. -/
def extractLeftoverMediaTokens (resolve : String → String) (text : String) : LeftoverResult :=
  let lines := splitLinesAux [] text.data
  let filePaths := lines.filterMap lineLeftoverPath
  if filePaths.length == 0 then
    { text := text, mediaUrls := [] }
  else
    let cleanedLines := lines.map fun l => if (lineLeftoverPath l).isSome then [] else l
    let cleaned := jsTrim (collapseNewlines ⟨joinLines cleanedLines⟩)
    let resolved := filePaths.map resolve
    { text := cleaned, mediaUrls := resolved.filter isRemoteUrl }

example : extractLeftoverMediaTokens id "NO" = { text := "NO", mediaUrls := [] } := by decide
example :
    extractLeftoverMediaTokens (fun _ => "https://gw/media/outbound/1") "a\nMEDIA: /tmp/x.png\nb" =
      { text := "a\n\nb", mediaUrls := ["https://gw/media/outbound/1"] } := by decide

/-- One attempt of `MD_IMAGE_LOCAL_RE` = `/!\[([^\]]*)\]\((\/[^)]+)\)/g` at
the head of `l`: on success returns `(full match, alt group, path group,
remainder)`. -/
def tryMatchMdImage (l : List Char) : Option (List Char × List Char × List Char × List Char) :=
  match l with
  | '!' :: '[' :: rest =>
    let alt := rest.takeWhile (fun c => c != ']')
    (match rest.drop alt.length with
     | ']' :: '(' :: rest2 =>
       if rest2.head? == some '/' then
         let inner := rest2.takeWhile (fun c => c != ')')
         (match rest2.drop inner.length with
          | ')' :: rest3 =>
            some ('!' :: '[' :: alt ++ ']' :: '(' :: inner ++ [')'], alt, inner, rest3)
          | _ => none)
       else none
     | _ => none)
  | _ => none

/-- All matches of `MD_IMAGE_LOCAL_RE`, left to right (`text.matchAll`). -/
def findMdImagesAux : Nat → List Char → List (List Char × List Char × List Char)
  | 0, _ => []
  | _ + 1, [] => []
  | fuel + 1, c :: cs =>
    match tryMatchMdImage (c :: cs) with
    | some (full, alt, inner, rest) => (full, alt, inner) :: findMdImagesAux fuel rest
    | none => findMdImagesAux fuel cs

/-- Replace the first occurrence of `pat` in the scanned list by `rep`
(JS `String.prototype.replace` with a string pattern). -/
def replaceFirstAux (pat rep : List Char) : Nat → List Char → List Char
  | 0, l => l
  | _ + 1, [] => []
  | fuel + 1, c :: cs =>
    if (c :: cs).take pat.length == pat then rep ++ (c :: cs).drop pat.length
    else c :: replaceFirstAux pat rep fuel cs

def replaceFirst (s pat rep : String) : String :=
  ⟨replaceFirstAux pat.data rep.data (s.data.length + 1) s.data⟩

/-- `resolveLocalMarkdownImages` from `media.ts`: rewrite markdown image
references with local absolute paths into gateway URLs; a reference is only
rewritten when the collaborator returned a remote URL. -/
def resolveLocalMarkdownImages (resolve : String → String) (text : String) : String :=
  let found := findMdImagesAux (text.data.length + 1) text.data
  let replacements := found.filter fun m => !(isRemoteUrl ⟨m.2.2⟩)
  if replacements.length == 0 then text
  else
    replacements.foldl
      (fun result m =>
        let resolved := resolve ⟨m.2.2⟩
        if isRemoteUrl resolved then
          replaceFirst result ⟨m.1⟩ ("![" ++ (⟨m.2.1⟩ : String) ++ "](" ++ resolved ++ ")\n")
        else result)
      text

example : resolveLocalMarkdownImages id "one two three" = "one two three" := by decide
example :
    resolveLocalMarkdownImages (fun _ => "https://gw/m/1") "see ![pic](/tmp/a.png) end" =
      "see ![pic](https://gw/m/1)\n end" := by decide

/-- `formatMediaAsMarkdown` from `media.ts`. -/
def formatMediaAsMarkdown (urls : List String) : String :=
  if urls.length == 0 then ""
  else String.join (urls.map fun url => "![image](" ++ url ++ ")\n")

/-- A reply payload delivered by the dispatch pipeline (collaborator
interface, spec §6): optional cumulative text and optional media. -/
structure ReplyPayload where
  text : Option String := none
  mediaUrl : Option String := none
  mediaUrls : Option (List String) := none
deriving Repr, DecidableEq

/-- `collectMediaUrls` from `media.ts` (JS truthiness: an empty `mediaUrls`
array and an empty `mediaUrl` string are both falsy). -/
def collectMediaUrls (payload : ReplyPayload) : List String :=
  match payload.mediaUrls with
  | some l =>
    if l.length != 0 then l.filter (fun u => u != "")
    else match payload.mediaUrl with
      | some u => if u != "" then [u] else []
      | none => []
  | none =>
    match payload.mediaUrl with
    | some u => if u != "" then [u] else []
    | none => []

/-- A payload captured by the outbound collector (`outbound.ts`). -/
structure CapturedOutbound where
  text : Option String := none
  mediaUrl : Option String := none
deriving Repr, DecidableEq

/-- `capturedOutboundToMediaUrls` from `handler.ts`. -/
def capturedOutboundToMediaUrls (captured : List CapturedOutbound) : List String :=
  captured.flatMap fun c => match c.mediaUrl with
    | some u => if u != "" then [u] else []
    | none => []

/-! ### The streaming reply renderer (`handleStreaming` in `handler.ts`)

One request's state machine.  The SSE events written by `writeSseEvent` /
`writeDone` are recorded in emission order in `StreamState.events`.  The
run models a request whose client never disconnects (`req.on("close")`
never fires), so `closed` only becomes true when `finish` ends the
stream. -/

inductive SseEvent where
  | created
  | inProgress
  | outputItemAdded
  | contentPartAdded
  | outputTextDelta (delta : String)
  | outputTextDone (text : String)
  | contentPartDone (text : String)
  | outputItemDone (text : String)
  | completedEvent (status : String) (text : String)
  | doneMarker
deriving Repr, DecidableEq

/-- The per-request mutable locals of `handleStreaming`, plus the emitted
event log. -/
structure StreamState where
  closed : Bool
  accumulatedText : String
  accumulatedStrippedLength : Nat
  silentReplyDetected : Bool
  pendingBuffer : String
  events : List SseEvent
deriving Repr, DecidableEq

/-- State after the four unconditional opening events
(`response.created`, `response.in_progress`, `response.output_item.added`,
`response.content_part.added`). -/
def initialStreamState : StreamState :=
  { closed := false
    accumulatedText := ""
    accumulatedStrippedLength := 0
    silentReplyDetected := false
    pendingBuffer := ""
    events := [.created, .inProgress, .outputItemAdded, .contentPartAdded] }

/-- `emitDelta` from `handleStreaming`:
`if (closed || !delta || silentReplyDetected) return;`. -/
def emitDelta (s : StreamState) (delta : String) : StreamState :=
  if s.closed || delta == "" || s.silentReplyDetected then s
  else { s with events := s.events ++ [.outputTextDelta delta] }

/-- JS `a || b` on strings (empty string is falsy). -/
def orTruthy (a b : String) : String :=
  if a == "" then b else a

/-- The close sequence written by `finish`: `response.output_text.done`,
`response.content_part.done`, `response.output_item.done`,
`response.completed`, then the `[DONE]` stream-terminator. -/
def closeSeq (status finalText : String) : List SseEvent :=
  [.outputTextDone finalText, .contentPartDone finalText, .outputItemDone finalText,
   .completedEvent status finalText, .doneMarker]

/-- `finish` from `handleStreaming`:
`finalText = resolvedText || accumulatedText || "No response from OpenClaw."`,
then the close sequence. -/
def finish (s : StreamState) (status : String) (resolvedText : Option String) : StreamState :=
  if s.closed then s
  else
    let finalText :=
      orTruthy (resolvedText.getD "") (orTruthy s.accumulatedText "No response from OpenClaw.")
    { s with
      closed := true
      events := s.events ++ closeSeq status finalText }

/-- The media part of the confirmed-not-silent branch of the snapshot
callbacks: resolve the payload's raw media URLs and emit them as one
markdown delta.  `resolve` abstracts the `resolveMediaUrls`
collaborator. -/
def snapshotMediaStep (resolve : String → String) (s : StreamState) (payload : ReplyPayload) :
    StreamState :=
  let rawUrls := collectMediaUrls payload
  if rawUrls.length > 0 then
    let media := formatMediaAsMarkdown (rawUrls.map resolve)
    if media == "" then s else emitDelta s ("\n\n" ++ media)
  else s

/-- The text part of the confirmed-not-silent branch of the snapshot
callbacks: emit the newly revealed suffix of the stripped cumulative text
(from the start of a pending buffer, else from
`accumulatedStrippedLength`), then update the bookkeeping.  JS
`text.length` / `text.slice(i)` count UTF-16 units, modelled as
characters (ASCII). -/
def snapshotTextStep (s : StreamState) (text : String) : StreamState :=
  if text == "" then s
  else
    let startIndex := if s.pendingBuffer == "" then s.accumulatedStrippedLength else 0
    let s' :=
      if text.data.length > startIndex then emitDelta s ⟨text.data.drop startIndex⟩ else s
    { s' with accumulatedStrippedLength := text.data.length, pendingBuffer := "" }

/-- The shared body of the `deliver` callback and the `onPartialReply`
callback of `handleStreaming` (the two are textually identical): silent
sentinel check (discard the buffer and suppress), cumulative-snapshot
bookkeeping, possible-silent buffering, then the media delta and the
incremental text delta. -/
def processSnapshot (resolve : String → String) (s : StreamState) (payload : ReplyPayload) :
    StreamState :=
  let rawText := payload.text.getD ""
  if isSilentReplyText rawText SILENT_REPLY_TOKEN then
    { s with silentReplyDetected := true, pendingBuffer := "" }
  else
    let s := { s with accumulatedText := rawText }
    if couldBecomeSilentReply rawText then
      let pb := stripMediaTokens rawText
      { s with pendingBuffer := pb, accumulatedStrippedLength := pb.data.length }
    else
      snapshotTextStep (snapshotMediaStep resolve s payload) (stripMediaTokens rawText)

/-- Shared emission shape for a batch of already-resolved media URLs:
`if (allMedia.length > 0) { const media = formatMediaAsMarkdown(allMedia);
if (media) emitDelta(...) }`. -/
def emitMediaMarkdown (s : StreamState) (urls : List String) : StreamState :=
  if urls.length > 0 then
    let media := formatMediaAsMarkdown urls
    if media == "" then s else emitDelta s ("\n\n" ++ media)
  else s

/-- The code after the dispatch call resolves in `handleStreaming`:
captured outbound media plus leftover `MEDIA:` tokens become one media
delta, the final text is resolved, and the stream is closed with
`finish("completed", resolvedFinalText)`. -/
def streamPostlude (resolve : String → String) (s : StreamState)
    (captured : List CapturedOutbound) : StreamState :=
  let capturedMedia := capturedOutboundToMediaUrls captured
  let leftover := extractLeftoverMediaTokens resolve s.accumulatedText
  let resolvedCaptured := if capturedMedia.length > 0 then capturedMedia.map resolve else []
  let allMedia := resolvedCaptured ++ leftover.mediaUrls
  let s := emitMediaMarkdown s allMedia
  let resolvedFinalText := resolveLocalMarkdownImages resolve leftover.text
  finish s "completed" (some resolvedFinalText)

/-- A full streaming request without client disconnect: the opening
events, the cumulative snapshots (partial-reply callbacks followed by the
terminal deliver callback, which share one body), then either the success
postlude or the catch branch
(`emitDelta("Error: ..."); finish("failed")`). -/
def streamRun (resolve : String → String) (snapshots : List ReplyPayload)
    (captured : List CapturedOutbound) (dispatchError : Option String) : StreamState :=
  let s := snapshots.foldl (processSnapshot resolve) initialStreamState
  match dispatchError with
  | none => streamPostlude resolve s captured
  | some msg => if s.closed then s else finish (emitDelta s ("Error: " ++ msg)) "failed" none

/-- The delta payloads among the emitted events, in order. -/
def deltaTexts (l : List SseEvent) : List String :=
  l.filterMap fun e => match e with
    | .outputTextDelta d => some d
    | _ => none

/-- The `response.output_text.done` payloads among the emitted events. -/
def doneTexts (l : List SseEvent) : List String :=
  l.filterMap fun e => match e with
    | .outputTextDone t => some t
    | _ => none

/-- Concatenation of all emitted deltas. -/
def deltaConcat (l : List SseEvent) : String :=
  String.join (deltaTexts l)

/-- Text-only snapshot. -/
def textPayload (t : String) : ReplyPayload :=
  { text := some t }

/-- Every event in the list is a `response.output_text.delta` event. -/
def DeltasOnly (l : List SseEvent) : Prop :=
  ∀ e ∈ l, ∃ d, e = SseEvent.outputTextDelta d

example :
    deltaTexts (streamRun id ([textPayload "one", textPayload "one two",
      textPayload "one two three"]) [] none).events = ["one", " two", " three"] := by decide

example :
    doneTexts (streamRun id ([textPayload "one", textPayload "one two",
      textPayload "one two three"]) [] none).events = ["one two three"] := by decide

example :
    deltaTexts (streamRun id ([textPayload "N", textPayload "NO",
      textPayload "NO_REPLY"]) [] none).events = [] := by decide

example :
    doneTexts (streamRun id ([textPayload "N", textPayload "NO",
      textPayload "NO_REPLY"]) [] none).events = ["NO"] := by decide

example :
    doneTexts (streamRun id ([textPayload "NO_REPLY"]) [] none).events =
      ["No response from OpenClaw."] := by decide

example :
    deltaTexts (streamRun id ([textPayload "N", textPayload "NOT SILENT"]) [] none).events =
      ["NOT SILENT"] := by decide

example :
    deltaTexts (streamRun id ([textPayload "abc", textPayload "ab",
      textPayload "abc"]) [] none).events = ["abc", "c"] := by decide

/-! ### The session store (`session-store.ts`)

The per-agent store file is modelled by its parse result: `none` for a
missing or corrupt file, `some data` for a parseable one.  The record
`SessionStoreData.mappings` is an association list in insertion order with
unique keys (JS object property order for string keys).  Times are `Int`
milliseconds; the TTL / max-entries environment overrides are modelled as
the `parseInt` result of the respective variable (`none` = unset or not a
number). -/

structure SessionMapping where
  sessionKey : String
  createdAt : Int
deriving Repr, DecidableEq

abbrev Mappings := List (String × SessionMapping)

structure SessionStoreData where
  version : Nat
  mappings : Mappings
deriving Repr, DecidableEq

/-- `createEmptyStore` from `session-store.ts`. -/
def createEmptyStore : SessionStoreData :=
  { version := 1, mappings := [] }

/-- `loadStoreSync` from `session-store.ts`: a missing/corrupt file or one
whose `version` is not `1` yields the empty store (fail-open). -/
def loadStoreSync (parsed : Option SessionStoreData) : SessionStoreData :=
  match parsed with
  | some s => if s.version == 1 then s else createEmptyStore
  | none => createEmptyStore

def DEFAULT_TTL_MS : Int := 14 * 24 * 60 * 60 * 1000
def DEFAULT_MAX_ENTRIES : Int := 4096

/-- `getTtlMs` from `session-store.ts`: the parsed
`OPENCLAW_RESPONSES_API_SESSION_TTL_MS` override when positive, else the
two-week default. -/
def getTtlMs (env : Option Int) : Int :=
  match env with
  | some v => if 0 < v then v else DEFAULT_TTL_MS
  | none => DEFAULT_TTL_MS

/-- `getMaxEntries` from `session-store.ts`: the parsed
`OPENCLAW_RESPONSES_API_MAX_SESSIONS` override when positive, else 4096. -/
def getMaxEntries (env : Option Int) : Int :=
  match env with
  | some v => if 0 < v then v else DEFAULT_MAX_ENTRIES
  | none => DEFAULT_MAX_ENTRIES

/-- Record read `store.mappings[responseId]`. -/
def lookupKey : Mappings → String → Option SessionMapping
  | [], _ => none
  | (k, v) :: rest, key => if k == key then some v else lookupKey rest key

/-- Record upsert `store.mappings[responseId] = mapping`: replace in place
keeping property order, else append. -/
def setKey : Mappings → String → SessionMapping → Mappings
  | [], key, v => [(key, v)]
  | (k, w) :: rest, key, v =>
    if k == key then (key, v) :: rest else (k, w) :: setKey rest key v

/-- `lookupSessionKey` from `session-store.ts`: re-load and re-parse the
store file (its current parse result is the `parsed` argument — no
cross-call cache exists), then miss on absent or expired entries. -/
def lookupSessionKey (ttlEnv : Option Int) (parsed : Option SessionStoreData)
    (responseId : String) (now : Int) : Option String :=
  let store := loadStoreSync parsed
  match lookupKey store.mappings responseId with
  | none => none
  | some m => if now - m.createdAt > getTtlMs ttlEnv then none else some m.sessionKey

/-- Stable insertion for `entries.sort((a, b) => a[1].createdAt - b[1].createdAt)`. -/
def insertByCreatedAt (e : String × SessionMapping) : Mappings → Mappings
  | [] => [e]
  | x :: xs =>
    if x.2.createdAt ≤ e.2.createdAt then x :: insertByCreatedAt e xs else e :: x :: xs

/-- JS `Array.prototype.sort` (stable) by ascending `createdAt`. -/
def sortByCreatedAt (m : Mappings) : Mappings :=
  m.foldl (fun acc e => insertByCreatedAt e acc) []

/-- `saveStoreUnlocked` from `session-store.ts`, the pure store-trimming
part (the serialisation and atomic-rename write are I/O): purge entries
older than TTL, then, if over the `maxEntries` limit, delete the
oldest-`createdAt` entries (by key) until at the limit. -/
def saveStoreUnlocked (ttlEnv : Option Int) (maxEntries : Int) (now : Int)
    (m : Mappings) : Mappings :=
  let ttl := getTtlMs ttlEnv
  let purged := m.filter fun e => !decide (now - e.2.createdAt > ttl)
  if (purged.length : Int) > maxEntries then
    let sorted := sortByCreatedAt purged
    let toRemove := sorted.take ((purged.length : Int) - maxEntries).toNat
    purged.filter fun e => !(toRemove.any fun r => r.1 == e.1)
  else purged

/-- The critical section of `storeSessionMapping`: re-load the store,
upsert the entry with `createdAt = now`, then `saveStoreUnlocked`. -/
def storeSessionMappingUpdate (ttlEnv : Option Int) (maxEntries : Int)
    (responseId sessionKey : String) (now : Int) (m : Mappings) : Mappings :=
  saveStoreUnlocked ttlEnv maxEntries now
    (setKey m responseId { sessionKey := sessionKey, createdAt := now })

/-- A sequence of `storeSessionMapping` critical sections, each request
given as `(responseId, sessionKey, createdAt)` and executed at
`now = createdAt`. -/
def runStores (ttlEnv maxEnv : Option Int) (reqs : List (String × String × Int))
    (m0 : Mappings) : Mappings :=
  reqs.foldl
    (fun m r => storeSessionMappingUpdate ttlEnv (getMaxEntries maxEnv) r.1 r.2.1 r.2.2 m) m0

/-- The stored entry produced by one `(responseId, sessionKey, createdAt)`
request. -/
def storeEntry (r : String × String × Int) : String × SessionMapping :=
  (r.1, { sessionKey := r.2.1, createdAt := r.2.2 })

example :
    runStores none (some 2) [("r1", "s1", 10), ("r2", "s2", 20), ("r3", "s3", 30)] [] =
      [("r2", { sessionKey := "s2", createdAt := 20 }),
       ("r3", { sessionKey := "s3", createdAt := 30 })] := by decide

/-! ### Session key resolution (`handler.ts`) -/

/-- The new-session key minted by `resolveSessionKey` in `handler.ts`:
`agent:<agentId>:responses-api:<responseId>`. -/
def mintSessionKey (agentId responseId : String) : String :=
  "agent:" ++ agentId ++ ":responses-api:" ++ responseId

/-- `resolveSessionKey` from `handler.ts`: reuse the looked-up session key
when the client supplied a `previous_response_id` that resolves, else mint
a new agent-prefixed key from this request's own response id. -/
def resolveSessionKey (ttlEnv : Option Int) (parsed : Option SessionStoreData)
    (previousResponseId : Option String) (responseId agentId : String) (now : Int) : String :=
  match previousResponseId with
  | some prev =>
    match lookupSessionKey ttlEnv parsed prev now with
    | some k => k
    | none => mintSessionKey agentId responseId
  | none => mintSessionKey agentId responseId

/-- One request of `handleResponsesApiRequest` as it touches the session
store: resolve the session key against the current store, then (the
fire-and-forget `storeSessionMapping(responseId, sessionKey, agentId)`,
here assumed to persist) store the chosen key under THIS request's
response id. -/
def requestStep (ttlEnv maxEnv : Option Int) (agentId : String) (m : Mappings)
    (prev : Option String) (responseId : String) (now : Int) : String × Mappings :=
  let key :=
    resolveSessionKey ttlEnv (some { version := 1, mappings := m }) prev responseId agentId now
  (key, storeSessionMappingUpdate ttlEnv (getMaxEntries maxEnv) responseId key now m)

/-- A chain of requests in which every request after the first supplies the
previous request's response id as `previous_response_id`. -/
def runChain (ttlEnv maxEnv : Option Int) (agentId : String) :
    Mappings → Option String → List (String × Int) → Mappings
  | m, _, [] => m
  | m, prev, (rid, now) :: rest =>
    runChain ttlEnv maxEnv agentId
      (requestStep ttlEnv maxEnv agentId m prev rid now).2 (some rid) rest

/-- The stored entry produced by one chain request `(responseId, createdAt)`
mapping to the shared session key. -/
def chainEntry (key : String) (r : String × Int) : String × SessionMapping :=
  (r.1, { sessionKey := key, createdAt := r.2 })

example :
    runChain none none "main" [] none [("r1", 10), ("r2", 20), ("r3", 30)] =
      [("r1", { sessionKey := "agent:main:responses-api:r1", createdAt := 10 }),
       ("r2", { sessionKey := "agent:main:responses-api:r1", createdAt := 20 }),
       ("r3", { sessionKey := "agent:main:responses-api:r1", createdAt := 30 })] := by decide

/-! ### The advisory file lock (`withFileLock` in `session-store.ts`)

The acquisition loop is driven by a trace of filesystem outcomes: each
trace element is the wall-clock time `now` at which one
`fs.promises.open(lockPath, "wx")` attempt runs, together with that
attempt's outcome.  The loop's observable actions are logged. -/

def LOCK_STALE_MS : Int := 30000
def LOCK_TIMEOUT_MS : Int := 10000
def LOCK_POLL_MS : Int := 25

/-- Outcome of one create-exclusive open attempt.  For a contended attempt
(`EEXIST`), `statAge` is `now - st.mtimeMs` for the existing lock file, or
`none` when the subsequent `stat` itself fails. -/
inductive FsAttempt where
  | opened
  | failEEXIST (statAge : Option Int)
  | failENOENT
  | failOther
deriving Repr, DecidableEq

inductive LockAction where
  | openExclusive
  | writeLockInfo
  | mkdirParent
  | sleepPoll (ms : Int)
  | statLockFile
  | unlinkStaleLock
  | runCritical
  | unlinkLockRelease
deriving Repr, DecidableEq

inductive AcquireOutcome where
  | acquired
  | timedOut
  | errored
  | stillPolling
deriving Repr, DecidableEq

/-- The acquisition loop of `withFileLock`: create-exclusive open; on
`ENOENT` re-`mkdir` the parent, sleep 25ms and retry (no timeout check on
this branch); on an unexpected error re-throw; on `EEXIST` first fail once
more than 10s have elapsed since `startedAt`, otherwise delete a lock file
older than 30s and retry immediately, or sleep 25ms and retry.  A trace
that ends while the loop still wants another attempt yields
`stillPolling` (the loop itself never gives up on such a trace). -/
def acquireLoop (startedAt : Int) : List (Int × FsAttempt) → List LockAction × AcquireOutcome
  | [] => ([], .stillPolling)
  | (now, att) :: rest =>
    match att with
    | .opened => ([.openExclusive, .writeLockInfo], .acquired)
    | .failENOENT =>
      let r := acquireLoop startedAt rest
      (.openExclusive :: .mkdirParent :: .sleepPoll LOCK_POLL_MS :: r.1, r.2)
    | .failOther => ([.openExclusive], .errored)
    | .failEEXIST statAge =>
      if now - startedAt > LOCK_TIMEOUT_MS then ([.openExclusive], .timedOut)
      else
        match statAge with
        | some age =>
          if age > LOCK_STALE_MS then
            let r := acquireLoop startedAt rest
            (.openExclusive :: .statLockFile :: .unlinkStaleLock :: r.1, r.2)
          else
            let r := acquireLoop startedAt rest
            (.openExclusive :: .statLockFile :: .sleepPoll LOCK_POLL_MS :: r.1, r.2)
        | none =>
          let r := acquireLoop startedAt rest
          (.openExclusive :: .statLockFile :: .sleepPoll LOCK_POLL_MS :: r.1, r.2)

/-- `withFileLock` from `session-store.ts`: run the acquisition loop, then
the critical section `fn` (whose disk outcome is the `critical` argument)
inside `try ... finally fs.promises.unlink(lockPath)` — the release unlink
runs whether or not `fn` failed.  An acquisition failure propagates as the
rejection of the whole call. -/
def withFileLock (startedAt : Int) (trace : List (Int × FsAttempt))
    (critical : Except String Unit) : List LockAction × Except String Unit :=
  match acquireLoop startedAt trace with
  | (acts, .acquired) => (acts ++ [.runCritical, .unlinkLockRelease], critical)
  | (acts, .timedOut) => (acts, .error "timeout acquiring responses-api session lock")
  | (acts, .errored) => (acts, .error "fs error")
  | (acts, .stillPolling) => (acts, .error "still polling")

/-- `storeSessionMapping` from `session-store.ts`, its error handling: the
whole `withFileLock` call sits in `try { ... } catch { /* silently ignore */ }`,
so the returned promise always resolves. -/
def storeSessionMapping (startedAt : Int) (trace : List (Int × FsAttempt))
    (critical : Except String Unit) : Except String Unit :=
  match (withFileLock startedAt trace critical).2 with
  | .ok _ => .ok ()
  | .error _ => .ok ()

example :
    acquireLoop 0 [(0, .failEEXIST (some 100)), (25, .opened)] =
      ([.openExclusive, .statLockFile, .sleepPoll 25, .openExclusive, .writeLockInfo],
       .acquired) := by decide

example :
    acquireLoop 0 [(0, .failEEXIST (some 40000)), (1, .opened)] =
      ([.openExclusive, .statLockFile, .unlinkStaleLock, .openExclusive, .writeLockInfo],
       .acquired) := by decide

example : (acquireLoop 0 [(10001, .failEEXIST (some 100))]).2 = .timedOut := by decide

example : (acquireLoop 0 [(20000, .failENOENT), (20100, .opened)]).2 = .acquired := by decide

/-! ### Helper lemmas -/

theorem getTtlMs_pos (env : Option Int) : 0 < getTtlMs env := by
  unfold getTtlMs DEFAULT_TTL_MS
  cases env with
  | none => norm_num
  | some v =>
    by_cases h : 0 < v
    · simp [h]
    · simp [h]

theorem getMaxEntries_pos (env : Option Int) : 0 < getMaxEntries env := by
  unfold getMaxEntries DEFAULT_MAX_ENTRIES
  cases env with
  | none => norm_num
  | some v =>
    by_cases h : 0 < v
    · simp [h]
    · simp [h]

theorem lookupKey_of_mem {m : Mappings} {k : String} {v : SessionMapping}
    (hnd : (m.map Prod.fst).Nodup) (hmem : (k, v) ∈ m) : lookupKey m k = some v := by
  induction m with
  | nil => cases hmem
  | cons e rest ih =>
    simp only [List.map_cons, List.nodup_cons] at hnd
    rcases List.mem_cons.mp hmem with h | h
    · subst h
      simp [lookupKey]
    · have hne : e.1 ≠ k := by
        intro hEq
        exact hnd.1 (hEq ▸ List.mem_map_of_mem Prod.fst h)
      simp only [lookupKey]
      rw [if_neg (by simpa using hne)]
      exact ih hnd.2 h

theorem lookupKey_of_not_mem {m : Mappings} {k : String}
    (h : k ∉ m.map Prod.fst) : lookupKey m k = none := by
  induction m with
  | nil => rfl
  | cons e rest ih =>
    simp only [List.map_cons, List.mem_cons, not_or] at h
    simp only [lookupKey]
    rw [if_neg (by simpa using fun hEq => h.1 hEq.symm)]
    exact ih h.2

theorem setKey_fresh {m : Mappings} {k : String} (v : SessionMapping)
    (h : k ∉ m.map Prod.fst) : setKey m k v = m ++ [(k, v)] := by
  induction m with
  | nil => rfl
  | cons e rest ih =>
    simp only [List.map_cons, List.mem_cons, not_or] at h
    simp only [setKey]
    rw [if_neg (by simpa using fun hEq => h.1 hEq.symm)]
    rw [ih h.2]
    rfl

theorem insertByCreatedAt_append (e : String × SessionMapping) :
    ∀ l : Mappings, (∀ x ∈ l, x.2.createdAt ≤ e.2.createdAt) →
      insertByCreatedAt e l = l ++ [e] := by
  intro l
  induction l with
  | nil => intro _; rfl
  | cons x xs ih =>
    intro h
    simp only [insertByCreatedAt]
    rw [if_pos (h x (List.mem_cons_self x xs))]
    rw [ih (fun y hy => h y (List.mem_cons_of_mem x hy))]
    rfl

theorem sortByCreatedAt_foldl :
    ∀ (l acc : Mappings),
      (∀ x ∈ acc, ∀ y ∈ l, x.2.createdAt ≤ y.2.createdAt) →
      l.Pairwise (fun a b => a.2.createdAt ≤ b.2.createdAt) →
      l.foldl (fun acc e => insertByCreatedAt e acc) acc = acc ++ l := by
  intro l
  induction l with
  | nil => intro acc _ _; simp
  | cons y l ih =>
    intro acc hacc hpair
    rw [List.foldl_cons]
    rw [insertByCreatedAt_append y acc (fun x hx => hacc x hx y (List.mem_cons_self y l))]
    have h1 : ∀ x ∈ acc ++ [y], ∀ z ∈ l, x.2.createdAt ≤ z.2.createdAt := by
      intro x hx z hz
      rcases List.mem_append.mp hx with h | h
      · exact hacc x h z (List.mem_cons_of_mem y hz)
      · have hxy : x = y := by simpa using h
        subst hxy
        exact (List.pairwise_cons.mp hpair).1 z hz
    rw [ih (acc ++ [y]) h1 (List.pairwise_cons.mp hpair).2]
    simp

theorem sortByCreatedAt_sorted {l : Mappings}
    (h : l.Pairwise (fun a b => a.2.createdAt ≤ b.2.createdAt)) : sortByCreatedAt l = l := by
  unfold sortByCreatedAt
  rw [sortByCreatedAt_foldl l [] (by simp) h]
  simp

theorem saveStoreUnlocked_no_evict (ttlEnv : Option Int) (maxEntries now : Int)
    (l : Mappings)
    (hkeep : ∀ e ∈ l, ¬(now - e.2.createdAt > getTtlMs ttlEnv))
    (hlen : ¬((l.length : Int) > maxEntries)) :
    saveStoreUnlocked ttlEnv maxEntries now l = l := by
  simp only [saveStoreUnlocked]
  have hfil : (l.filter fun e => !decide (now - e.2.createdAt > getTtlMs ttlEnv)) = l := by
    rw [List.filter_eq_self]
    intro a ha
    simpa using hkeep a ha
  rw [hfil, if_neg hlen]

theorem saveStoreUnlocked_evict_one (ttlEnv maxEnv : Option Int) (now : Int)
    (e : String × SessionMapping) (rest : Mappings)
    (hkeep : ∀ x ∈ e :: rest, ¬(now - x.2.createdAt > getTtlMs ttlEnv))
    (hnd : (((e :: rest) : Mappings).map Prod.fst).Nodup)
    (hsorted : ((e :: rest) : Mappings).Pairwise (fun a b => a.2.createdAt ≤ b.2.createdAt))
    (hlen : (((e :: rest) : Mappings).length : Int) = getMaxEntries maxEnv + 1) :
    saveStoreUnlocked ttlEnv (getMaxEntries maxEnv) now (e :: rest) = rest := by
  simp only [saveStoreUnlocked]
  have hfil : ((e :: rest).filter fun x => !decide (now - x.2.createdAt > getTtlMs ttlEnv)) =
      e :: rest := by
    rw [List.filter_eq_self]
    intro a ha
    simpa using hkeep a ha
  rw [hfil]
  rw [if_pos (by omega)]
  rw [sortByCreatedAt_sorted hsorted]
  have htake : ((((e :: rest) : Mappings).length : Int) - getMaxEntries maxEnv).toNat = 1 := by
    omega
  rw [htake]
  have htake1 : (List.take 1 (e :: rest) : Mappings) = [e] := by simp
  rw [htake1]
  have hrest : (rest.filter fun x => !(e.1 == x.1)) = rest := by
    rw [List.filter_eq_self]
    intro a ha
    have hne : e.1 ≠ a.1 := by
      simp only [List.map_cons, List.nodup_cons] at hnd
      intro hEq
      exact hnd.1 (hEq ▸ List.mem_map_of_mem Prod.fst ha)
    simp [hne]
  rw [List.filter_cons]
  simp only [List.any_cons, List.any_nil, beq_self_eq_true, Bool.or_false, Bool.not_true,
    Bool.false_eq_true, if_false]
  exact hrest

theorem storeEntry_keys (l : List (String × String × Int)) :
    (l.map storeEntry).map Prod.fst = l.map Prod.fst := by
  rw [List.map_map]
  rfl

theorem chainEntry_keys (key : String) (l : List (String × Int)) :
    (l.map (chainEntry key)).map Prod.fst = l.map Prod.fst := by
  rw [List.map_map]
  rfl

theorem storeSessionMappingUpdate_fresh (ttlEnv maxEnv : Option Int)
    (done : List (String × String × Int)) (r : String × String × Int)
    (hfresh : r.1 ∉ done.map Prod.fst)
    (hkeep : ∀ q ∈ done ++ [r], r.2.2 - q.2.2 ≤ getTtlMs ttlEnv)
    (hlen : ((done.length : Int) + 1 ≤ getMaxEntries maxEnv)) :
    storeSessionMappingUpdate ttlEnv (getMaxEntries maxEnv) r.1 r.2.1 r.2.2
      (done.map storeEntry) = (done ++ [r]).map storeEntry := by
  unfold storeSessionMappingUpdate
  have hfresh2 : r.1 ∉ (done.map storeEntry).map Prod.fst := by
    rw [storeEntry_keys]
    exact hfresh
  rw [setKey_fresh _ hfresh2]
  have hmap : done.map storeEntry ++ [(r.1, { sessionKey := r.2.1, createdAt := r.2.2 })] =
      (done ++ [r]).map storeEntry := by
    simp [storeEntry]
  rw [hmap]
  apply saveStoreUnlocked_no_evict
  · intro e he
    obtain ⟨q, hq, rfl⟩ := List.mem_map.mp he
    have := hkeep q hq
    simp only [storeEntry]
    omega
  · simp only [List.length_map, List.length_append, List.length_singleton]
    push_cast
    omega

theorem runStores_fresh_aux (ttlEnv maxEnv : Option Int) :
    ∀ (reqs done : List (String × String × Int)),
      (((done ++ reqs).map Prod.fst).Nodup) →
      (∀ r ∈ done ++ reqs, ∀ q ∈ done ++ reqs, r.2.2 - q.2.2 ≤ getTtlMs ttlEnv) →
      (((done.length : Int) + reqs.length ≤ getMaxEntries maxEnv)) →
      runStores ttlEnv maxEnv reqs (done.map storeEntry) = (done ++ reqs).map storeEntry := by
  intro reqs
  induction reqs with
  | nil =>
    intro done _ _ _
    simp [runStores]
  | cons r reqs ih =>
    intro done hnd hspan hlen
    have hassoc : (done ++ [r]) ++ reqs = done ++ r :: reqs := by simp
    have hrmem : r ∈ done ++ r :: reqs := by simp
    have hfresh : r.1 ∉ done.map Prod.fst := by
      intro hmemK
      rw [List.map_append, List.nodup_append] at hnd
      exact hnd.2.2 hmemK (by simp)
    have hstep := storeSessionMappingUpdate_fresh ttlEnv maxEnv done r hfresh
      (fun q hq => hspan r hrmem q (by
        rcases List.mem_append.mp hq with h | h
        · exact List.mem_append_left _ h
        · have hqr : q = r := by simpa using h
          subst hqr
          exact hrmem))
      (by simp at hlen ⊢; omega)
    have hunfold : runStores ttlEnv maxEnv (r :: reqs) (done.map storeEntry) =
        runStores ttlEnv maxEnv reqs
          (storeSessionMappingUpdate ttlEnv (getMaxEntries maxEnv) r.1 r.2.1 r.2.2
            (done.map storeEntry)) := by
      simp only [runStores, List.foldl_cons]
    rw [hunfold, hstep]
    have := ih (done ++ [r]) (by rw [hassoc]; exact hnd) (by rw [hassoc]; exact hspan)
      (by simp at hlen ⊢; omega)
    rw [this, hassoc]

theorem runChain_aux (ttlEnv maxEnv : Option Int) (agentId key : String) :
    ∀ (rest done : List (String × Int)) (lastId : String) (tLast : Int),
      (lastId, tLast) ∈ done →
      (((done ++ rest).map Prod.fst).Nodup) →
      (∀ r ∈ done ++ rest, ∀ q ∈ done ++ rest, r.2 - q.2 ≤ getTtlMs ttlEnv) →
      (((done.length : Int) + rest.length ≤ getMaxEntries maxEnv)) →
      runChain ttlEnv maxEnv agentId (done.map (chainEntry key)) (some lastId) rest =
        (done ++ rest).map (chainEntry key) := by
  intro rest
  induction rest with
  | nil =>
    intro done lastId tLast _ _ _ _
    simp [runChain]
  | cons r rest ih =>
    intro done lastId tLast hmem hnd hspan hlen
    obtain ⟨rid, now⟩ := r
    have hassoc : (done ++ [(rid, now)]) ++ rest = done ++ (rid, now) :: rest := by simp
    have hrmem : ((rid, now) : String × Int) ∈ done ++ (rid, now) :: rest := by simp
    have hdonend : (done.map Prod.fst).Nodup := by
      rw [List.map_append, List.nodup_append] at hnd
      exact hnd.1
    have hlook : lookupSessionKey ttlEnv
        (some { version := 1, mappings := done.map (chainEntry key) }) lastId now =
        some key := by
      have hk : lookupKey (done.map (chainEntry key)) lastId =
          some { sessionKey := key, createdAt := tLast } := by
        apply lookupKey_of_mem
        · rw [chainEntry_keys]
          exact hdonend
        · exact List.mem_map_of_mem (chainEntry key) hmem
      have httl : ¬(getTtlMs ttlEnv < now - tLast) := by
        have := hspan (rid, now) hrmem (lastId, tLast) (List.mem_append_left _ hmem)
        simp only at this
        omega
      simp [lookupSessionKey, loadStoreSync, hk, httl]
    have hres : resolveSessionKey ttlEnv
        (some { version := 1, mappings := done.map (chainEntry key) })
        (some lastId) rid agentId now = key := by
      simp [resolveSessionKey, hlook]
    have hfresh : rid ∉ done.map Prod.fst := by
      intro hmemK
      rw [List.map_append, List.nodup_append] at hnd
      exact hnd.2.2 hmemK (by simp)
    have hstep : (requestStep ttlEnv maxEnv agentId (done.map (chainEntry key))
        (some lastId) rid now).2 = (done ++ [(rid, now)]).map (chainEntry key) := by
      simp only [requestStep, hres]
      unfold storeSessionMappingUpdate
      have hfresh2 : rid ∉ (done.map (chainEntry key)).map Prod.fst := by
        rw [chainEntry_keys]
        exact hfresh
      rw [setKey_fresh _ hfresh2]
      have hmap : done.map (chainEntry key) ++
          [(rid, { sessionKey := key, createdAt := now })] =
          (done ++ [(rid, now)]).map (chainEntry key) := by
        simp [chainEntry]
      rw [hmap]
      apply saveStoreUnlocked_no_evict
      · intro e he
        obtain ⟨q, hq, rfl⟩ := List.mem_map.mp he
        have hq2 : q ∈ done ++ (rid, now) :: rest := by
          rcases List.mem_append.mp hq with h | h
          · exact List.mem_append_left _ h
          · have hqr : q = (rid, now) := by simpa using h
            subst hqr
            exact hrmem
        have := hspan (rid, now) hrmem q hq2
        simp only [chainEntry]
        omega
      · simp at hlen ⊢
        omega
    have hunfold : runChain ttlEnv maxEnv agentId (done.map (chainEntry key))
        (some lastId) ((rid, now) :: rest) =
        runChain ttlEnv maxEnv agentId
          (requestStep ttlEnv maxEnv agentId (done.map (chainEntry key))
            (some lastId) rid now).2 (some rid) rest := by
      simp only [runChain]
    rw [hunfold, hstep]
    have := ih (done ++ [(rid, now)]) rid now (by simp)
      (by rw [hassoc]; exact hnd) (by rw [hassoc]; exact hspan)
      (by simp at hlen ⊢; omega)
    rw [this, hassoc]

theorem DeltasOnly_nil : DeltasOnly [] := by
  intro e he
  cases he

theorem DeltasOnly_append {a b : List SseEvent} (ha : DeltasOnly a) (hb : DeltasOnly b) :
    DeltasOnly (a ++ b) := by
  intro e he
  rcases List.mem_append.mp he with h | h
  · exact ha e h
  · exact hb e h

theorem emitDelta_closed (s : StreamState) (d : String) : (emitDelta s d).closed = s.closed := by
  unfold emitDelta
  split <;> rfl

theorem emitDelta_fields (s : StreamState) (d : String) :
    (emitDelta s d).accumulatedText = s.accumulatedText ∧
    (emitDelta s d).accumulatedStrippedLength = s.accumulatedStrippedLength ∧
    (emitDelta s d).silentReplyDetected = s.silentReplyDetected ∧
    (emitDelta s d).pendingBuffer = s.pendingBuffer := by
  unfold emitDelta
  split <;> exact ⟨rfl, rfl, rfl, rfl⟩

theorem emitDelta_of_silent {s : StreamState} (h : s.silentReplyDetected = true) (d : String) :
    emitDelta s d = s := by
  unfold emitDelta
  rw [if_pos]
  simp [h]

theorem emitDelta_events_ext (s : StreamState) (d : String) :
    ∃ t, (emitDelta s d).events = s.events ++ t ∧ DeltasOnly t := by
  unfold emitDelta
  split
  · exact ⟨[], by simp, DeltasOnly_nil⟩
  · refine ⟨[.outputTextDelta d], rfl, ?_⟩
    intro e he
    simp only [List.mem_singleton] at he
    exact ⟨d, he⟩

theorem snapshotMediaStep_events_ext (resolve : String → String) (s : StreamState)
    (p : ReplyPayload) :
    ∃ t, (snapshotMediaStep resolve s p).events = s.events ++ t ∧ DeltasOnly t := by
  simp only [snapshotMediaStep]
  split
  · split
    · exact ⟨[], by simp, DeltasOnly_nil⟩
    · exact emitDelta_events_ext s _
  · exact ⟨[], by simp, DeltasOnly_nil⟩

theorem snapshotMediaStep_closed (resolve : String → String) (s : StreamState)
    (p : ReplyPayload) : (snapshotMediaStep resolve s p).closed = s.closed := by
  simp only [snapshotMediaStep]
  split
  · split
    · rfl
    · exact emitDelta_closed s _
  · rfl

theorem snapshotMediaStep_fields (resolve : String → String) (s : StreamState)
    (p : ReplyPayload) :
    (snapshotMediaStep resolve s p).accumulatedText = s.accumulatedText ∧
    (snapshotMediaStep resolve s p).accumulatedStrippedLength = s.accumulatedStrippedLength ∧
    (snapshotMediaStep resolve s p).silentReplyDetected = s.silentReplyDetected ∧
    (snapshotMediaStep resolve s p).pendingBuffer = s.pendingBuffer := by
  simp only [snapshotMediaStep]
  split
  · split
    · exact ⟨rfl, rfl, rfl, rfl⟩
    · exact emitDelta_fields s _
  · exact ⟨rfl, rfl, rfl, rfl⟩

theorem snapshotMediaStep_of_silent (resolve : String → String) {s : StreamState}
    (p : ReplyPayload) (h : s.silentReplyDetected = true) :
    snapshotMediaStep resolve s p = s := by
  simp only [snapshotMediaStep]
  split
  · split
    · rfl
    · exact emitDelta_of_silent h _
  · rfl

theorem snapshotTextStep_events_ext (s : StreamState) (text : String) :
    ∃ t, (snapshotTextStep s text).events = s.events ++ t ∧ DeltasOnly t := by
  simp only [snapshotTextStep]
  split
  · exact ⟨[], by simp, DeltasOnly_nil⟩
  · split <;> split
    · exact emitDelta_events_ext s _
    · exact ⟨[], by simp, DeltasOnly_nil⟩
    · exact emitDelta_events_ext s _
    · exact ⟨[], by simp, DeltasOnly_nil⟩

theorem snapshotTextStep_closed (s : StreamState) (text : String) :
    (snapshotTextStep s text).closed = s.closed := by
  simp only [snapshotTextStep]
  split
  · rfl
  · split <;> split
    · exact emitDelta_closed s _
    · rfl
    · exact emitDelta_closed s _
    · rfl

theorem snapshotTextStep_silent (s : StreamState) (text : String) :
    (snapshotTextStep s text).silentReplyDetected = s.silentReplyDetected := by
  simp only [snapshotTextStep]
  split
  · rfl
  · split <;> split
    · exact (emitDelta_fields s _).2.2.1
    · rfl
    · exact (emitDelta_fields s _).2.2.1
    · rfl

theorem snapshotTextStep_of_silent {s : StreamState} (h : s.silentReplyDetected = true)
    (text : String) : (snapshotTextStep s text).events = s.events := by
  simp only [snapshotTextStep]
  split
  · rfl
  · split <;> split
    · rw [emitDelta_of_silent h]
    · rfl
    · rw [emitDelta_of_silent h]
    · rfl

theorem emitDelta_emits {s : StreamState} (hcl : s.closed = false)
    (hsil : s.silentReplyDetected = false) {d : String} (hd : d ≠ "") :
    emitDelta s d = { s with events := s.events ++ [.outputTextDelta d] } := by
  unfold emitDelta
  rw [if_neg]
  simp [hcl, hsil, hd]

theorem snapshotTextStep_emits {s : StreamState} (hcl : s.closed = false)
    (hsil : s.silentReplyDetected = false) (hpend : s.pendingBuffer = "") {text : String}
    (hlen : text.data.length > s.accumulatedStrippedLength) :
    (snapshotTextStep s text).events =
      s.events ++ [.outputTextDelta ⟨text.data.drop s.accumulatedStrippedLength⟩] := by
  have htext : ¬(text == "") = true := by
    intro hEq
    rw [beq_iff_eq] at hEq
    subst hEq
    simp at hlen
  simp only [snapshotTextStep]
  rw [if_neg htext, hpend]
  simp only [beq_self_eq_true, if_true]
  rw [if_pos hlen]
  have hne : (⟨text.data.drop s.accumulatedStrippedLength⟩ : String) ≠ "" := by
    intro hEq
    have hdata := congrArg String.data hEq
    simp only at hdata
    rw [List.drop_eq_nil_iff] at hdata
    omega
  rw [emitDelta_emits hcl hsil hne]

theorem snapshotTextStep_no_emit {s : StreamState} (hpend : s.pendingBuffer = "")
    {text : String} (hlen : text.data.length ≤ s.accumulatedStrippedLength) :
    (snapshotTextStep s text).events = s.events := by
  simp only [snapshotTextStep]
  split
  · rfl
  · rw [hpend]
    simp only [beq_self_eq_true, if_true]
    rw [if_neg (by omega)]

theorem processSnapshot_silent_branch {resolve : String → String} {s : StreamState}
    {p : ReplyPayload} (h : isSilentReplyText (p.text.getD "") SILENT_REPLY_TOKEN = true) :
    processSnapshot resolve s p = { s with silentReplyDetected := true, pendingBuffer := "" } := by
  simp only [processSnapshot]
  rw [if_pos h]

theorem processSnapshot_events_ext (resolve : String → String) (s : StreamState)
    (p : ReplyPayload) :
    ∃ t, (processSnapshot resolve s p).events = s.events ++ t ∧ DeltasOnly t := by
  simp only [processSnapshot]
  split
  · exact ⟨[], by simp, DeltasOnly_nil⟩
  · split
    · exact ⟨[], by simp, DeltasOnly_nil⟩
    · obtain ⟨t1, h1, d1⟩ :=
        snapshotMediaStep_events_ext resolve { s with accumulatedText := p.text.getD "" } p
      obtain ⟨t2, h2, d2⟩ :=
        snapshotTextStep_events_ext
          (snapshotMediaStep resolve { s with accumulatedText := p.text.getD "" } p)
          (stripMediaTokens (p.text.getD ""))
      refine ⟨t1 ++ t2, ?_, DeltasOnly_append d1 d2⟩
      rw [h2, h1, List.append_assoc]

theorem processSnapshot_closed (resolve : String → String) (s : StreamState)
    (p : ReplyPayload) : (processSnapshot resolve s p).closed = s.closed := by
  simp only [processSnapshot]
  split
  · rfl
  · split
    · rfl
    · rw [snapshotTextStep_closed, snapshotMediaStep_closed]

theorem processSnapshot_of_silentFlag (resolve : String → String) {s : StreamState}
    (p : ReplyPayload) (h : s.silentReplyDetected = true) :
    (processSnapshot resolve s p).events = s.events ∧
    (processSnapshot resolve s p).silentReplyDetected = true := by
  simp only [processSnapshot]
  split
  · exact ⟨rfl, rfl⟩
  · split
    · exact ⟨rfl, h⟩
    · have hsil : ({ s with accumulatedText := p.text.getD "" } : StreamState).silentReplyDetected
          = true := h
      rw [snapshotMediaStep_of_silent resolve p hsil]
      constructor
      · exact snapshotTextStep_of_silent hsil _
      · rw [snapshotTextStep_silent]
        exact hsil

theorem foldl_processSnapshot_events_ext (resolve : String → String)
    (ps : List ReplyPayload) :
    ∀ s : StreamState, ∃ t, (ps.foldl (processSnapshot resolve) s).events = s.events ++ t ∧
      DeltasOnly t := by
  induction ps with
  | nil => intro s; exact ⟨[], by simp, DeltasOnly_nil⟩
  | cons p ps ih =>
    intro s
    obtain ⟨t1, h1, d1⟩ := processSnapshot_events_ext resolve s p
    obtain ⟨t2, h2, d2⟩ := ih (processSnapshot resolve s p)
    refine ⟨t1 ++ t2, ?_, DeltasOnly_append d1 d2⟩
    rw [List.foldl_cons, h2, h1, List.append_assoc]

theorem foldl_processSnapshot_closed (resolve : String → String) (ps : List ReplyPayload) :
    ∀ s : StreamState, (ps.foldl (processSnapshot resolve) s).closed = s.closed := by
  induction ps with
  | nil => intro s; rfl
  | cons p ps ih =>
    intro s
    rw [List.foldl_cons, ih, processSnapshot_closed]

theorem foldl_all_silent (resolve : String → String) (ps : List ReplyPayload)
    (hne : ps ≠ [])
    (hall : ∀ p ∈ ps, isSilentReplyText (p.text.getD "") SILENT_REPLY_TOKEN = true) :
    ∀ s : StreamState, ps.foldl (processSnapshot resolve) s =
      { s with silentReplyDetected := true, pendingBuffer := "" } := by
  induction ps with
  | nil => exact absurd rfl hne
  | cons p ps ih =>
    intro s
    rw [List.foldl_cons, processSnapshot_silent_branch (hall p (List.mem_cons_self p ps))]
    by_cases hps : ps = []
    · subst hps
      rfl
    · rw [ih hps (fun q hq => hall q (List.mem_cons_of_mem _ hq))]

theorem finish_not_closed {s : StreamState} (h : s.closed = false) (status : String)
    (resolvedText : Option String) :
    finish s status resolvedText =
      { s with
        closed := true
        events := s.events ++ closeSeq status
          (orTruthy (resolvedText.getD "")
            (orTruthy s.accumulatedText "No response from OpenClaw.")) } := by
  unfold finish
  rw [if_neg (by simp [h])]

theorem deltaTexts_append (a b : List SseEvent) :
    deltaTexts (a ++ b) = deltaTexts a ++ deltaTexts b := by
  unfold deltaTexts
  exact List.filterMap_append a b _

theorem doneTexts_append (a b : List SseEvent) :
    doneTexts (a ++ b) = doneTexts a ++ doneTexts b := by
  unfold doneTexts
  exact List.filterMap_append a b _

theorem deltaTexts_closeSeq (status finalText : String) :
    deltaTexts (closeSeq status finalText) = [] := rfl

theorem doneTexts_closeSeq (status finalText : String) :
    doneTexts (closeSeq status finalText) = [finalText] := rfl

theorem deltaTexts_of_DeltasOnly_nilOnly {t : List SseEvent} (hd : DeltasOnly t)
    (h : deltaTexts t = []) : t = [] := by
  cases t with
  | nil => rfl
  | cons e rest =>
    obtain ⟨d, hdEq⟩ := hd e (List.mem_cons_self e rest)
    subst hdEq
    simp [deltaTexts, List.filterMap_cons] at h

theorem extractLeftover_empty (resolve : String → String) :
    extractLeftoverMediaTokens resolve "" = { text := "", mediaUrls := [] } := rfl

theorem resolveLocalMarkdownImages_empty (resolve : String → String) :
    resolveLocalMarkdownImages resolve "" = "" := rfl

theorem emitMediaMarkdown_of_silent {s : StreamState} (h : s.silentReplyDetected = true)
    (urls : List String) : emitMediaMarkdown s urls = s := by
  simp only [emitMediaMarkdown]
  split
  · split
    · rfl
    · exact emitDelta_of_silent h _
  · rfl

theorem emitMediaMarkdown_events_ext (s : StreamState) (urls : List String) :
    ∃ t, (emitMediaMarkdown s urls).events = s.events ++ t ∧ DeltasOnly t := by
  simp only [emitMediaMarkdown]
  split
  · split
    · exact ⟨[], by simp, DeltasOnly_nil⟩
    · exact emitDelta_events_ext s _
  · exact ⟨[], by simp, DeltasOnly_nil⟩

theorem emitMediaMarkdown_closed (s : StreamState) (urls : List String) :
    (emitMediaMarkdown s urls).closed = s.closed := by
  simp only [emitMediaMarkdown]
  split
  · split
    · rfl
    · exact emitDelta_closed s _
  · rfl

theorem streamPostlude_of_silent (resolve : String → String) {s : StreamState}
    (captured : List CapturedOutbound) (hsil : s.silentReplyDetected = true)
    (hcl : s.closed = false) (hacc : s.accumulatedText = "") :
    streamPostlude resolve s captured =
      { s with closed := true
               events := s.events ++ closeSeq "completed" "No response from OpenClaw." } := by
  simp only [streamPostlude]
  rw [hacc, extractLeftover_empty]
  rw [emitMediaMarkdown_of_silent hsil]
  rw [resolveLocalMarkdownImages_empty, finish_not_closed hcl]
  rw [hacc]
  rfl

theorem streamPostlude_events_ext (resolve : String → String) (s : StreamState)
    (captured : List CapturedOutbound) (hcl : s.closed = false) :
    ∃ t ft, DeltasOnly t ∧
      (streamPostlude resolve s captured).events = s.events ++ t ++ closeSeq "completed" ft := by
  simp only [streamPostlude]
  have hcl2 : (emitMediaMarkdown s
      ((if (capturedOutboundToMediaUrls captured).length > 0
        then (capturedOutboundToMediaUrls captured).map resolve else []) ++
        (extractLeftoverMediaTokens resolve s.accumulatedText).mediaUrls)).closed = false := by
    rw [emitMediaMarkdown_closed]
    exact hcl
  rw [finish_not_closed hcl2]
  obtain ⟨t, ht, hd⟩ := emitMediaMarkdown_events_ext s
    ((if (capturedOutboundToMediaUrls captured).length > 0
      then (capturedOutboundToMediaUrls captured).map resolve else []) ++
      (extractLeftoverMediaTokens resolve s.accumulatedText).mediaUrls)
  exact ⟨t, _, hd, by simp only [ht, List.append_assoc]; rfl⟩

/-! ### C5: session-store lookup TTL semantics -/

/-- **C5.** For every stored entry, `lookupSessionKey` parses the current
store-file contents afresh (they are an explicit input, there is no
in-memory cache) and returns not-found when the file is missing/corrupt,
when the entry is absent, or once `now - createdAt > TTL`; strictly before
that boundary it returns the stored session key; the TTL defaults to 14
days (1209600000 ms) and a positive configured override replaces it. -/
theorem lookup_ttl_semantics :
    (∀ (ttlEnv : Option Int) (responseId : String) (now : Int),
      lookupSessionKey ttlEnv none responseId now = none)
    ∧ (∀ (ttlEnv : Option Int) (parsed : Option SessionStoreData) (responseId : String)
        (now : Int), lookupKey (loadStoreSync parsed).mappings responseId = none →
        lookupSessionKey ttlEnv parsed responseId now = none)
    ∧ (∀ (ttlEnv : Option Int) (parsed : Option SessionStoreData) (responseId : String)
        (now : Int) (m : SessionMapping),
        lookupKey (loadStoreSync parsed).mappings responseId = some m →
        now - m.createdAt > getTtlMs ttlEnv →
        lookupSessionKey ttlEnv parsed responseId now = none)
    ∧ (∀ (ttlEnv : Option Int) (parsed : Option SessionStoreData) (responseId : String)
        (now : Int) (m : SessionMapping),
        lookupKey (loadStoreSync parsed).mappings responseId = some m →
        now - m.createdAt < getTtlMs ttlEnv →
        lookupSessionKey ttlEnv parsed responseId now = some m.sessionKey)
    ∧ getTtlMs none = 14 * 24 * 60 * 60 * 1000
    ∧ (∀ v : Int, 0 < v → getTtlMs (some v) = v) := by
  refine ⟨?_, ?_, ?_, ?_, rfl, ?_⟩
  · intro ttlEnv responseId now
    rfl
  · intro ttlEnv parsed responseId now h
    simp [lookupSessionKey, h]
  · intro ttlEnv parsed responseId now m h hexp
    simp [lookupSessionKey, h, hexp]
  · intro ttlEnv parsed responseId now m h hfresh
    have : ¬(now - m.createdAt > getTtlMs ttlEnv) := by omega
    simp [lookupSessionKey, h, this]
  · intro v hv
    simp [getTtlMs, hv]

/-- Witness for C5: an entry created at time 0 with a 1000 ms TTL override
resolves at `now = 500` and misses at `now = 2000`. -/
theorem lookup_ttl_semantics_witness :
    lookupSessionKey (some 1000)
      (some { version := 1, mappings := [("r1", { sessionKey := "s1", createdAt := 0 })] })
      "r1" 500 = some "s1"
    ∧ lookupSessionKey (some 1000)
      (some { version := 1, mappings := [("r1", { sessionKey := "s1", createdAt := 0 })] })
      "r1" 2000 = none := by
  constructor
  · exact lookup_ttl_semantics.2.2.2.1 (some 1000)
      (some { version := 1, mappings := [("r1", { sessionKey := "s1", createdAt := 0 })] })
      "r1" 500 { sessionKey := "s1", createdAt := 0 } (by decide) (by decide)
  · exact lookup_ttl_semantics.2.2.1 (some 1000)
      (some { version := 1, mappings := [("r1", { sessionKey := "s1", createdAt := 0 })] })
      "r1" 2000 { sessionKey := "s1", createdAt := 0 } (by decide) (by decide)

/-! ### C7: store is best-effort and never throws -/

/-- **C7.** `storeSessionMapping` resolves for every lock-acquisition trace
and every critical-section outcome — all failures are swallowed — while
the un-caught inner `withFileLock` call really can fail (a lock timeout
and a disk failure inside the critical section are both rejections of the
inner call, shown at concrete traces). -/
theorem store_best_effort :
    (∀ (startedAt : Int) (trace : List (Int × FsAttempt)) (critical : Except String Unit),
      storeSessionMapping startedAt trace critical = .ok ())
    ∧ (withFileLock 0 [(10001, .failEEXIST (some 100))] (.ok ())).2 =
        .error "timeout acquiring responses-api session lock"
    ∧ (withFileLock 0 [(0, .opened)] (.error "disk write failed")).2 =
        .error "disk write failed" := by
  refine ⟨?_, rfl, rfl⟩
  intro startedAt trace critical
  unfold storeSessionMapping
  cases h : (withFileLock startedAt trace critical).2 <;> simp

/-! ### C9: lock acquisition protocol (corrected) -/

/-- **C9, counterexample.** The claim states the acquisition loop "gives up
and fails after the 10s overall timeout rather than waiting indefinitely,
for every failure mode of the underlying file operations".  On the
`ENOENT` failure mode no timeout check runs: here two open attempts fail
with `ENOENT` at 15s and 20s after `startedAt` — both far beyond
`LOCK_TIMEOUT_MS` — yet the loop neither times out nor fails, and a third
attempt at 20.1s still acquires the lock. -/
theorem lock_timeout_not_universal :
    (acquireLoop 0 [(15000, .failENOENT), (20000, .failENOENT), (20100, .opened)]).2 =
      .acquired
    ∧ (15000 : Int) - 0 > LOCK_TIMEOUT_MS := by
  exact ⟨rfl, by decide⟩

/-- **C9, amended.** Lock acquisition uses create-exclusive creation of the
sentinel lock file; on contention with a lock at most 30s old it sleeps
25ms and retries; on contention with a lock older than the 30s staleness
threshold it deletes the lock file and retries immediately; a contended
attempt more than 10s after `startedAt` fails with the overall timeout —
but that timeout check runs only on the contention (`EEXIST`) branch:
`ENOENT` is retried (mkdir, 25ms sleep) without any timeout check and
other open errors propagate immediately; after acquisition the sentinel
file is deleted in a guaranteed-cleanup block regardless of whether the
critical section succeeds or fails. -/
theorem lock_protocol_amended :
    (∀ (startedAt now age : Int) (rest : List (Int × FsAttempt)),
      ¬(now - startedAt > LOCK_TIMEOUT_MS) → ¬(age > LOCK_STALE_MS) →
      acquireLoop startedAt ((now, .failEEXIST (some age)) :: rest) =
        (.openExclusive :: .statLockFile :: .sleepPoll LOCK_POLL_MS ::
          (acquireLoop startedAt rest).1, (acquireLoop startedAt rest).2))
    ∧ (∀ (startedAt now age : Int) (rest : List (Int × FsAttempt)),
      ¬(now - startedAt > LOCK_TIMEOUT_MS) → age > LOCK_STALE_MS →
      acquireLoop startedAt ((now, .failEEXIST (some age)) :: rest) =
        (.openExclusive :: .statLockFile :: .unlinkStaleLock ::
          (acquireLoop startedAt rest).1, (acquireLoop startedAt rest).2))
    ∧ (∀ (startedAt now : Int) (statAge : Option Int) (rest : List (Int × FsAttempt)),
      now - startedAt > LOCK_TIMEOUT_MS →
      acquireLoop startedAt ((now, .failEEXIST statAge) :: rest) =
        ([.openExclusive], .timedOut))
    ∧ (∀ (startedAt now : Int) (rest : List (Int × FsAttempt)),
      acquireLoop startedAt ((now, .failENOENT) :: rest) =
        (.openExclusive :: .mkdirParent :: .sleepPoll LOCK_POLL_MS ::
          (acquireLoop startedAt rest).1, (acquireLoop startedAt rest).2))
    ∧ (∀ (startedAt now : Int) (rest : List (Int × FsAttempt)),
      acquireLoop startedAt ((now, .failOther) :: rest) = ([.openExclusive], .errored))
    ∧ (∀ (startedAt : Int) (trace : List (Int × FsAttempt)) (critical : Except String Unit),
      (acquireLoop startedAt trace).2 = .acquired →
      .unlinkLockRelease ∈ (withFileLock startedAt trace critical).1) := by
  refine ⟨?_, ?_, ?_, ?_, ?_, ?_⟩
  · intro startedAt now age rest h1 h2
    simp [acquireLoop, h1, h2]
  · intro startedAt now age rest h1 h2
    simp [acquireLoop, h1, h2]
  · intro startedAt now statAge rest h1
    simp [acquireLoop, h1]
  · intro startedAt now rest
    simp [acquireLoop]
  · intro startedAt now rest
    simp [acquireLoop]
  · intro startedAt trace critical hacq
    unfold withFileLock
    rcases h : acquireLoop startedAt trace with ⟨acts, outcome⟩
    rw [h] at hacq
    simp only at hacq
    subst hacq
    simp

/-- Witness for C9 (amended): a non-stale contended attempt inside the
timeout window sleeps 25ms and retries; a contended attempt past 10s times
out; the release unlink runs even when the critical section fails. -/
theorem lock_protocol_amended_witness :
    acquireLoop 0 [(0, .failEEXIST (some 100)), (25, .opened)] =
      (.openExclusive :: .statLockFile :: .sleepPoll LOCK_POLL_MS ::
        (acquireLoop 0 [((25 : Int), .opened)]).1, (acquireLoop 0 [((25 : Int), .opened)]).2)
    ∧ acquireLoop 0 [((10001 : Int), .failEEXIST (some 100))] = ([.openExclusive], .timedOut)
    ∧ .unlinkLockRelease ∈ (withFileLock 0 [((0 : Int), .opened)] (.error "disk full")).1 := by
  refine ⟨?_, ?_, ?_⟩
  · exact lock_protocol_amended.1 0 0 100 [((25 : Int), .opened)] (by decide) (by decide)
  · exact lock_protocol_amended.2.2.1 0 10001 (some 100) [] (by decide)
  · exact lock_protocol_amended.2.2.2.2.2 0 [((0 : Int), .opened)] (.error "disk full") rfl

/-! ### C1: streaming silent-reply suppression -/

/-- **C1.** (i) For every streaming request in which every delivered text
payload is exactly the silent-reply sentinel, zero
`response.output_text.delta` events are emitted and the final
`response.output_text.done` event carries the fallback placeholder
`"No response from OpenClaw."` — never the sentinel literal.  (ii) A
snapshot recognized as equal to the sentinel drops the pending buffer and
sets the terminal suppression flag; (iii) once that flag is set, no later
snapshot changes the emitted events (no further deltas), and the flag
stays set. -/
theorem silent_reply_suppression :
    (∀ (resolve : String → String) (snapshots : List ReplyPayload)
      (captured : List CapturedOutbound),
      snapshots ≠ [] →
      (∀ p ∈ snapshots, isSilentReplyText (p.text.getD "") SILENT_REPLY_TOKEN = true) →
      deltaTexts (streamRun resolve snapshots captured none).events = [] ∧
      doneTexts (streamRun resolve snapshots captured none).events =
        ["No response from OpenClaw."])
    ∧ (∀ (resolve : String → String) (s : StreamState) (p : ReplyPayload),
        isSilentReplyText (p.text.getD "") SILENT_REPLY_TOKEN = true →
        processSnapshot resolve s p =
          { s with silentReplyDetected := true, pendingBuffer := "" })
    ∧ (∀ (resolve : String → String) (s : StreamState) (p : ReplyPayload),
        s.silentReplyDetected = true →
        (processSnapshot resolve s p).events = s.events ∧
        (processSnapshot resolve s p).silentReplyDetected = true) := by
  refine ⟨?_, ?_, ?_⟩
  · intro resolve snapshots captured hne hall
    have hfold := foldl_all_silent resolve snapshots hne hall initialStreamState
    have hrun : streamRun resolve snapshots captured none =
        streamPostlude resolve
          { initialStreamState with silentReplyDetected := true, pendingBuffer := "" }
          captured := by
      simp only [streamRun]
      rw [hfold]
    rw [hrun, streamPostlude_of_silent resolve captured rfl rfl rfl]
    exact ⟨by decide, by decide⟩
  · intro resolve s p h
    exact processSnapshot_silent_branch h
  · intro resolve s p h
    exact processSnapshot_of_silentFlag resolve p h

/-- Witness for C1: the single snapshot `"NO_REPLY"` yields zero deltas and
the placeholder done-text. -/
theorem silent_reply_suppression_witness :
    deltaTexts (streamRun id [textPayload "NO_REPLY"] [] none).events = [] ∧
    doneTexts (streamRun id [textPayload "NO_REPLY"] [] none).events =
      ["No response from OpenClaw."] :=
  silent_reply_suppression.1 id [textPayload "NO_REPLY"] [] (by decide) (by decide)

/-! ### C2: prefix holdback (corrected) -/

/-- **C2, counterexample.** For the cumulative snapshots `"N"`, `"NO"`,
`"NO_REPLY"` and nothing further, zero deltas are emitted — but the final
result is NOT the suppressed/placeholder text: the
`response.output_text.done` event carries `"NO"` (the last non-silent
buffered snapshot), which is neither the placeholder, nor empty, nor the
sentinel. -/
theorem prefix_holdback_counterexample :
    deltaTexts (streamRun id [textPayload "N", textPayload "NO", textPayload "NO_REPLY"] []
      none).events = []
    ∧ doneTexts (streamRun id [textPayload "N", textPayload "NO", textPayload "NO_REPLY"] []
      none).events = ["NO"]
    ∧ ("NO" : String) ≠ "No response from OpenClaw."
    ∧ ("NO" : String) ≠ ""
    ∧ ("NO" : String) ≠ SILENT_REPLY_TOKEN := by
  exact ⟨by decide, by decide, by decide, by decide, by decide⟩

/-- **C2, amended.** For cumulative snapshots `"N"`, `"NO"`, `"NO_REPLY"`
and nothing further, zero delta events are emitted, but the final
`output_text.done` text is the last non-silent buffered snapshot `"NO"`
(the silent branch returns before updating the accumulated text, and the
close sequence falls back to the accumulated text), not the placeholder;
for `"N"`, `"NOT SILENT"` the buffered `"N"` is flushed together with the
disambiguating remainder, the concatenation of all emitted deltas being
`"NOT SILENT"`; and in general a non-silent snapshot that is still a
case-insensitive prefix of the sentinel (or has the sentinel as a prefix,
or is empty/whitespace) is held in the pending buffer and emits no
delta. -/
theorem prefix_holdback_amended :
    (deltaTexts (streamRun id [textPayload "N", textPayload "NO", textPayload "NO_REPLY"] []
        none).events = []
      ∧ doneTexts (streamRun id [textPayload "N", textPayload "NO", textPayload "NO_REPLY"] []
        none).events = ["NO"])
    ∧ (deltaTexts (streamRun id [textPayload "N", textPayload "NOT SILENT"] [] none).events =
        ["NOT SILENT"]
      ∧ deltaConcat (streamRun id [textPayload "N", textPayload "NOT SILENT"] [] none).events =
        "NOT SILENT")
    ∧ (∀ (resolve : String → String) (s : StreamState) (p : ReplyPayload),
        isSilentReplyText (p.text.getD "") SILENT_REPLY_TOKEN = false →
        couldBecomeSilentReply (p.text.getD "") = true →
        (processSnapshot resolve s p).events = s.events ∧
        (processSnapshot resolve s p).pendingBuffer =
          stripMediaTokens (p.text.getD "")) := by
  refine ⟨⟨by decide, by decide⟩, ⟨by decide, by decide⟩, ?_⟩
  intro resolve s p h1 h2
  simp only [processSnapshot]
  rw [if_neg (by simp [h1]), if_pos h2]
  exact ⟨rfl, rfl⟩

/-- Witness for C2 (amended): the still-ambiguous snapshot `"N"` is
buffered and emits nothing. -/
theorem prefix_holdback_amended_witness :
    (processSnapshot id initialStreamState (textPayload "N")).events =
      initialStreamState.events
    ∧ (processSnapshot id initialStreamState (textPayload "N")).pendingBuffer =
      stripMediaTokens "N" :=
  prefix_holdback_amended.2.2 id initialStreamState (textPayload "N") (by decide) (by decide)

/-! ### C3: no double emission -/

/-- **C3.** For cumulative snapshots `"one"`, `"one two"`,
`"one two three"` the renderer emits exactly 3 deltas whose concatenation
is `"one two three"` and exactly one `output_text.done` event carrying
`"one two three"`; a terminal deliver repeating the already-streamed text
adds no extra delta; and in general an accepted (non-silent,
non-buffered, media-free) snapshot whose stripped text strictly extends
what was already flushed produces exactly one delta equal to the newly
revealed suffix beyond `accumulatedStrippedLength`. -/
theorem no_double_emission :
    (deltaTexts (streamRun id [textPayload "one", textPayload "one two",
        textPayload "one two three"] [] none).events = ["one", " two", " three"]
      ∧ deltaConcat (streamRun id [textPayload "one", textPayload "one two",
        textPayload "one two three"] [] none).events = "one two three"
      ∧ doneTexts (streamRun id [textPayload "one", textPayload "one two",
        textPayload "one two three"] [] none).events = ["one two three"])
    ∧ (deltaTexts (streamRun id [textPayload "one", textPayload "one two",
        textPayload "one two three", textPayload "one two three"] [] none).events =
          ["one", " two", " three"]
      ∧ doneTexts (streamRun id [textPayload "one", textPayload "one two",
        textPayload "one two three", textPayload "one two three"] [] none).events =
          ["one two three"])
    ∧ (∀ (resolve : String → String) (s : StreamState) (p : ReplyPayload),
        s.closed = false →
        s.silentReplyDetected = false →
        s.pendingBuffer = "" →
        isSilentReplyText (p.text.getD "") SILENT_REPLY_TOKEN = false →
        couldBecomeSilentReply (p.text.getD "") = false →
        collectMediaUrls p = [] →
        (stripMediaTokens (p.text.getD "")).data.length > s.accumulatedStrippedLength →
        (processSnapshot resolve s p).events = s.events ++
          [.outputTextDelta ⟨(stripMediaTokens (p.text.getD "")).data.drop
            s.accumulatedStrippedLength⟩]) := by
  refine ⟨⟨by decide, by decide, by decide⟩, ⟨by decide, by decide⟩, ?_⟩
  intro resolve s p hcl hsil hpend h1 h2 hmedia hlen
  simp only [processSnapshot]
  rw [if_neg (by simp [h1]), if_neg (by simp [h2])]
  have hms : snapshotMediaStep resolve { s with accumulatedText := p.text.getD "" } p =
      { s with accumulatedText := p.text.getD "" } := by
    simp [snapshotMediaStep, hmedia]
  rw [hms]
  exact @snapshotTextStep_emits { s with accumulatedText := p.text.getD "" } hcl hsil hpend
    (stripMediaTokens (p.text.getD "")) hlen

/-- Witness for C3: a first snapshot `"hello"` emits exactly the delta
`"hello"`. -/
theorem no_double_emission_witness :
    (processSnapshot id initialStreamState (textPayload "hello")).events =
      initialStreamState.events ++ [.outputTextDelta "hello"] :=
  no_double_emission.2.2 id initialStreamState (textPayload "hello") rfl rfl rfl
    (by decide) (by decide) (by decide) (by decide)

/-! ### C4: protocol event ordering -/

/-- **C4.** Every streaming request that runs to termination without
client disconnect emits exactly `response.created`,
`response.in_progress`, `response.output_item.added`,
`response.content_part.added`, zero or more `response.output_text.delta`
events, then the close sequence `response.output_text.done`,
`response.content_part.done`, `response.output_item.done`,
`response.completed`, `[DONE]` — in this order, for every snapshot
sequence, captured-media batch and dispatch outcome (success or
pipeline error). -/
theorem protocol_event_order (resolve : String → String) (snapshots : List ReplyPayload)
    (captured : List CapturedOutbound) (dispatchError : Option String) :
    ∃ (mids : List SseEvent) (status finalText : String),
      DeltasOnly mids ∧
      (streamRun resolve snapshots captured dispatchError).events =
        [.created, .inProgress, .outputItemAdded, .contentPartAdded] ++ mids ++
          closeSeq status finalText := by
  obtain ⟨t, ht, hd⟩ := foldl_processSnapshot_events_ext resolve snapshots initialStreamState
  have hcl : (snapshots.foldl (processSnapshot resolve) initialStreamState).closed = false :=
    foldl_processSnapshot_closed resolve snapshots initialStreamState
  cases dispatchError with
  | none =>
    simp only [streamRun]
    obtain ⟨t2, ft, hd2, h2⟩ :=
      streamPostlude_events_ext resolve
        (snapshots.foldl (processSnapshot resolve) initialStreamState) captured hcl
    refine ⟨t ++ t2, "completed", ft, DeltasOnly_append hd hd2, ?_⟩
    rw [h2, ht]
    simp [List.append_assoc, initialStreamState]
  | some msg =>
    simp only [streamRun]
    rw [if_neg (by simp [hcl])]
    obtain ⟨t3, h3, hd3⟩ :=
      emitDelta_events_ext (snapshots.foldl (processSnapshot resolve) initialStreamState)
        ("Error: " ++ msg)
    have hcl3 : (emitDelta (snapshots.foldl (processSnapshot resolve) initialStreamState)
        ("Error: " ++ msg)).closed = false := by
      rw [emitDelta_closed]
      exact hcl
    rw [finish_not_closed hcl3]
    exact ⟨t ++ t3, "failed", _, DeltasOnly_append hd hd3,
      by simp only [h3, ht, List.append_assoc]; rfl⟩

/-! ### C10: append-only emission (corrected) -/

/-- **C10, counterexample.** The no-delta guard compares against the
previous snapshot's stripped length, not against the length already
flushed.  For snapshots `"abc"`, `"ab"`, `"abc"`: after the first two
snapshots exactly `"abc"` has been flushed; the third snapshot's stripped
text is no longer than that flushed length, yet it emits the delta
`"c"` — re-emitting text the client already received (total deltas
`["abc", "c"]`). -/
theorem append_only_counterexample :
    deltaConcat (([textPayload "abc", textPayload "ab"]).foldl (processSnapshot id)
      initialStreamState).events = "abc"
    ∧ (stripMediaTokens "abc").data.length ≤
        (deltaConcat (([textPayload "abc", textPayload "ab"]).foldl (processSnapshot id)
          initialStreamState).events).data.length
    ∧ (processSnapshot id (([textPayload "abc", textPayload "ab"]).foldl (processSnapshot id)
        initialStreamState) (textPayload "abc")).events =
      (([textPayload "abc", textPayload "ab"]).foldl (processSnapshot id)
        initialStreamState).events ++ [.outputTextDelta "c"]
    ∧ deltaTexts (streamRun id [textPayload "abc", textPayload "ab", textPayload "abc"] []
        none).events = ["abc", "c"] := by
  exact ⟨by decide, by decide, by decide, by decide⟩

/-- **C10, amended.** The guard `text.length > startIndex` compares a
snapshot's stripped length against `accumulatedStrippedLength` — the
previous snapshot's stripped length — not against the total text already
flushed: a (non-silent, non-buffered, media-free) snapshot whose stripped
text is no longer than the previous snapshot's stripped length emits no
delta, and processing a snapshot only ever appends delta events to the
log (events are never retracted); but after a shrinking snapshot a later
snapshot may re-emit text already sent, so flushed output is append-only
in the claimed sense only while stripped snapshot lengths never
decrease. -/
theorem append_only_amended :
    (∀ (resolve : String → String) (s : StreamState) (p : ReplyPayload),
      isSilentReplyText (p.text.getD "") SILENT_REPLY_TOKEN = false →
      couldBecomeSilentReply (p.text.getD "") = false →
      collectMediaUrls p = [] →
      s.pendingBuffer = "" →
      (stripMediaTokens (p.text.getD "")).data.length ≤ s.accumulatedStrippedLength →
      (processSnapshot resolve s p).events = s.events)
    ∧ (∀ (resolve : String → String) (s : StreamState) (p : ReplyPayload),
        ∃ t, (processSnapshot resolve s p).events = s.events ++ t ∧ DeltasOnly t) := by
  constructor
  · intro resolve s p h1 h2 hmedia hpend hlen
    simp only [processSnapshot]
    rw [if_neg (by simp [h1]), if_neg (by simp [h2])]
    have hms : snapshotMediaStep resolve { s with accumulatedText := p.text.getD "" } p =
        { s with accumulatedText := p.text.getD "" } := by
      simp [snapshotMediaStep, hmedia]
    rw [hms]
    exact @snapshotTextStep_no_emit { s with accumulatedText := p.text.getD "" } hpend
      (stripMediaTokens (p.text.getD "")) hlen
  · intro resolve s p
    exact processSnapshot_events_ext resolve s p

/-- Witness for C10 (amended): with 5 characters already accounted, the
repeated stripped text `"abc"` (length 3) emits nothing. -/
theorem append_only_amended_witness :
    (processSnapshot id { initialStreamState with accumulatedStrippedLength := 5 }
      (textPayload "abc")).events =
    ({ initialStreamState with accumulatedStrippedLength := 5 } : StreamState).events :=
  append_only_amended.1 id { initialStreamState with accumulatedStrippedLength := 5 }
    (textPayload "abc") (by decide) (by decide) (by decide) (by decide) (by decide)

/-! ### C6: capacity eviction -/

/-- **C6.** With configured maximum entry count `N = getMaxEntries maxEnv`,
storing `N + 1` distinct turn identifiers with strictly increasing
`createdAt` timestamps (all within TTL of each other) leaves exactly the
`N` most recent entries in the store: the single oldest-`createdAt` entry
becomes unresolvable via lookup while the `N` most recent remain
resolvable; at write time entries older than TTL are purged and then the
oldest-`createdAt` entries are evicted until the count is at or under the
limit (`saveStoreUnlocked`), whose default is 4096 and whose positive
configured override replaces it. -/
theorem capacity_eviction (ttlEnv maxEnv : Option Int) (r₀ : String × String × Int)
    (mid : List (String × String × Int)) (rLast : String × String × Int)
    (hnd : ((r₀ :: (mid ++ [rLast])).map Prod.fst).Nodup)
    (hinc : (r₀ :: (mid ++ [rLast])).Pairwise fun a b => a.2.2 < b.2.2)
    (hspan : ∀ r ∈ r₀ :: (mid ++ [rLast]), ∀ q ∈ r₀ :: (mid ++ [rLast]),
      r.2.2 - q.2.2 ≤ getTtlMs ttlEnv)
    (hlen : ((r₀ :: (mid ++ [rLast])).length : Int) = getMaxEntries maxEnv + 1) :
    runStores ttlEnv maxEnv (r₀ :: (mid ++ [rLast])) [] = (mid ++ [rLast]).map storeEntry
    ∧ (∀ now' : Int,
        lookupSessionKey ttlEnv
          (some { version := 1,
                  mappings := runStores ttlEnv maxEnv (r₀ :: (mid ++ [rLast])) [] })
          r₀.1 now' = none)
    ∧ (∀ r ∈ mid ++ [rLast], ∀ now' : Int, now' - r.2.2 ≤ getTtlMs ttlEnv →
        lookupSessionKey ttlEnv
          (some { version := 1,
                  mappings := runStores ttlEnv maxEnv (r₀ :: (mid ++ [rLast])) [] })
          r.1 now' = some r.2.1)
    ∧ DEFAULT_MAX_ENTRIES = 4096
    ∧ (∀ v : Int, 0 < v → getMaxEntries (some v) = v) := by
  have hfullmem : ∀ r ∈ (r₀ :: mid) ++ [rLast], r ∈ r₀ :: (mid ++ [rLast]) := by
    intro r hr
    simpa using hr
  have hmain : runStores ttlEnv maxEnv (r₀ :: (mid ++ [rLast])) [] =
      (mid ++ [rLast]).map storeEntry := by
    have hdecomp : r₀ :: (mid ++ [rLast]) = (r₀ :: mid) ++ [rLast] := by simp
    rw [hdecomp]
    have happ : runStores ttlEnv maxEnv ((r₀ :: mid) ++ [rLast]) [] =
        runStores ttlEnv maxEnv [rLast] (runStores ttlEnv maxEnv (r₀ :: mid) []) := by
      simp only [runStores, List.foldl_append]
    rw [happ]
    have hfront : runStores ttlEnv maxEnv (r₀ :: mid) [] = (r₀ :: mid).map storeEntry := by
      have := runStores_fresh_aux ttlEnv maxEnv (r₀ :: mid) []
        (by
          rw [hdecomp] at hnd
          simp only [List.map_append] at hnd
          exact (List.nodup_append.mp hnd).1)
        (by
          intro r hr q hq
          exact hspan r (hfullmem r (List.mem_append_left _ (by simpa using hr)))
            q (hfullmem q (List.mem_append_left _ (by simpa using hq))))
        (by
          rw [hdecomp] at hlen
          simp only [List.length_append, List.length_cons, List.length_nil] at hlen ⊢
          push_cast at hlen ⊢
          omega)
      simpa using this
    rw [hfront]
    -- the (N+1)-th store: upsert then evict the oldest entry
    have hsingle : runStores ttlEnv maxEnv [rLast] ((r₀ :: mid).map storeEntry) =
        storeSessionMappingUpdate ttlEnv (getMaxEntries maxEnv) rLast.1 rLast.2.1 rLast.2.2
          ((r₀ :: mid).map storeEntry) := by
      simp only [runStores, List.foldl_cons, List.foldl_nil]
    rw [hsingle]
    unfold storeSessionMappingUpdate
    have hfresh : rLast.1 ∉ ((r₀ :: mid) : List (String × String × Int)).map Prod.fst := by
      intro hmemK
      rw [hdecomp, List.map_append, List.nodup_append] at hnd
      exact hnd.2.2 hmemK (by simp)
    have hfresh2 : rLast.1 ∉ (((r₀ :: mid).map storeEntry) : Mappings).map Prod.fst := by
      rw [storeEntry_keys]
      exact hfresh
    rw [setKey_fresh _ hfresh2]
    have hmap : (r₀ :: mid).map storeEntry ++
        [(rLast.1, { sessionKey := rLast.2.1, createdAt := rLast.2.2 })] =
        storeEntry r₀ :: (mid ++ [rLast]).map storeEntry := by
      simp [storeEntry]
    rw [hmap]
    apply saveStoreUnlocked_evict_one
    · intro x hx
      have hx2 : x ∈ (r₀ :: (mid ++ [rLast])).map storeEntry := by
        simpa using hx
      obtain ⟨q, hq, rfl⟩ := List.mem_map.mp hx2
      have := hspan rLast (by simp) q hq
      simp only [storeEntry]
      omega
    · have : (storeEntry r₀ :: (mid ++ [rLast]).map storeEntry) =
          (r₀ :: (mid ++ [rLast])).map storeEntry := by simp
      rw [this, storeEntry_keys]
      exact hnd
    · have : (storeEntry r₀ :: (mid ++ [rLast]).map storeEntry) =
          (r₀ :: (mid ++ [rLast])).map storeEntry := by simp
      rw [this]
      rw [List.pairwise_map]
      exact hinc.imp (fun h => le_of_lt h)
    · simp only [List.length_cons, List.length_map, List.length_append,
        List.length_singleton] at hlen ⊢
      push_cast at hlen ⊢
      omega
  refine ⟨hmain, ?_, ?_, rfl, ?_⟩
  · intro now'
    rw [hmain]
    have hno : r₀.1 ∉ ((mid ++ [rLast]).map storeEntry).map Prod.fst := by
      rw [storeEntry_keys]
      simp only [List.map_cons, List.nodup_cons] at hnd
      exact hnd.1
    have hkey0 : lookupKey (List.map storeEntry mid ++ [storeEntry rLast]) r₀.1 = none := by
      have := lookupKey_of_not_mem hno
      simpa using this
    simp [lookupSessionKey, loadStoreSync, hkey0]
  · intro r hr now' hfreshTtl
    rw [hmain]
    have hkey : lookupKey ((mid ++ [rLast]).map storeEntry) r.1 =
        some { sessionKey := r.2.1, createdAt := r.2.2 } := by
      apply lookupKey_of_mem
      · rw [storeEntry_keys]
        simp only [List.map_cons, List.nodup_cons] at hnd
        exact hnd.2
      · exact List.mem_map_of_mem storeEntry hr
    have hkey2 : lookupKey (List.map storeEntry mid ++ [storeEntry rLast]) r.1 =
        some { sessionKey := r.2.1, createdAt := r.2.2 } := by
      simpa using hkey
    have httl : ¬(getTtlMs ttlEnv < now' - r.2.2) := by omega
    simp [lookupSessionKey, loadStoreSync, hkey2, httl]
  · intro v hv
    simp [getMaxEntries, hv]

/-- Witness for C6: with the max-entries override 2, storing three entries
evicts exactly the oldest; `"r1"` misses while `"r2"`, `"r3"` resolve. -/
theorem capacity_eviction_witness :
    runStores none (some 2) [("r1", "s1", 10), ("r2", "s2", 20), ("r3", "s3", 30)] [] =
      [("r2", { sessionKey := "s2", createdAt := 20 }),
       ("r3", { sessionKey := "s3", createdAt := 30 })]
    ∧ lookupSessionKey none
        (some { version := 1,
                mappings := runStores none (some 2)
                  [("r1", "s1", 10), ("r2", "s2", 20), ("r3", "s3", 30)] [] })
        "r1" 40 = none
    ∧ lookupSessionKey none
        (some { version := 1,
                mappings := runStores none (some 2)
                  [("r1", "s1", 10), ("r2", "s2", 20), ("r3", "s3", 30)] [] })
        "r3" 40 = some "s3" := by
  have h := capacity_eviction none (some 2) ("r1", "s1", 10) [("r2", "s2", 20)]
    ("r3", "s3", 30) (by decide) (by decide) (by decide) (by decide)
  exact ⟨h.1, h.2.1 40, h.2.2.1 ("r3", "s3", 30) (by decide) 40 (by decide)⟩

/-! ### C8: session chaining -/

/-- **C8.** A request without a usable `previous_response_id` mints the key
`agent:<agentId>:responses-api:<thisResponseId>`; every request stores
its chosen session key under its own response id; consequently, for a
chain of requests each supplying the previous response's id (ids
distinct, within TTL and capacity), the final store maps every response
id of the chain to the first request's session key, so each of them, when
later presented as `previous_response_id`, resolves to that same
session key. -/
theorem session_chaining (ttlEnv maxEnv : Option Int) (agentId firstId : String)
    (firstT : Int) (rest : List (String × Int))
    (hnd : (((firstId, firstT) :: rest).map Prod.fst).Nodup)
    (hspan : ∀ r ∈ (firstId, firstT) :: rest, ∀ q ∈ (firstId, firstT) :: rest,
      r.2 - q.2 ≤ getTtlMs ttlEnv)
    (hlen : (((firstId, firstT) :: rest).length : Int) ≤ getMaxEntries maxEnv) :
    runChain ttlEnv maxEnv agentId [] none ((firstId, firstT) :: rest) =
      ((firstId, firstT) :: rest).map (chainEntry (mintSessionKey agentId firstId))
    ∧ (∀ r ∈ (firstId, firstT) :: rest, ∀ now' : Int,
        now' - r.2 ≤ getTtlMs ttlEnv →
        lookupSessionKey ttlEnv
          (some { version := 1,
                  mappings :=
                    runChain ttlEnv maxEnv agentId [] none ((firstId, firstT) :: rest) })
          r.1 now' = some (mintSessionKey agentId firstId))
    ∧ (∀ aid rid : String,
        mintSessionKey aid rid = "agent:" ++ aid ++ ":responses-api:" ++ rid)
    ∧ (∀ (parsed : Option SessionStoreData) (rid aid : String) (now : Int),
        resolveSessionKey ttlEnv parsed none rid aid now = mintSessionKey aid rid) := by
  have hmain : runChain ttlEnv maxEnv agentId [] none ((firstId, firstT) :: rest) =
      ((firstId, firstT) :: rest).map (chainEntry (mintSessionKey agentId firstId)) := by
    have hunfold : runChain ttlEnv maxEnv agentId [] none ((firstId, firstT) :: rest) =
        runChain ttlEnv maxEnv agentId
          (requestStep ttlEnv maxEnv agentId [] none firstId firstT).2
          (some firstId) rest := by
      simp only [runChain]
    rw [hunfold]
    have hstep : (requestStep ttlEnv maxEnv agentId [] none firstId firstT).2 =
        ([(firstId, firstT)] : List (String × Int)).map
          (chainEntry (mintSessionKey agentId firstId)) := by
      simp only [requestStep, resolveSessionKey]
      unfold storeSessionMappingUpdate
      have hset : setKey [] firstId
          { sessionKey := mintSessionKey agentId firstId, createdAt := firstT } =
          [(firstId, { sessionKey := mintSessionKey agentId firstId, createdAt := firstT })] :=
        rfl
      rw [hset]
      rw [saveStoreUnlocked_no_evict]
      · rfl
      · intro e he
        have he2 : e = (firstId,
            { sessionKey := mintSessionKey agentId firstId, createdAt := firstT }) := by
          simpa using he
        subst he2
        have := hspan (firstId, firstT) (by simp) (firstId, firstT) (by simp)
        simp only at this ⊢
        omega
      · have hmax := getMaxEntries_pos maxEnv
        simp
        omega
    rw [hstep]
    have := runChain_aux ttlEnv maxEnv agentId (mintSessionKey agentId firstId) rest
      [(firstId, firstT)] firstId firstT (by simp)
      (by rw [List.singleton_append]; exact hnd)
      (by rw [List.singleton_append]; exact hspan)
      (by simp at hlen ⊢; omega)
    rw [this, List.singleton_append]
  refine ⟨hmain, ?_, fun _ _ => rfl, fun _ _ _ _ => rfl⟩
  intro r hr now' httlr
  rw [hmain]
  have hkey : lookupKey (((firstId, firstT) :: rest).map
      (chainEntry (mintSessionKey agentId firstId))) r.1 =
      some { sessionKey := mintSessionKey agentId firstId, createdAt := r.2 } := by
    apply lookupKey_of_mem
    · rw [chainEntry_keys]
      exact hnd
    · exact List.mem_map_of_mem (chainEntry (mintSessionKey agentId firstId)) hr
  have hkey2 : lookupKey (chainEntry (mintSessionKey agentId firstId) (firstId, firstT) ::
      rest.map (chainEntry (mintSessionKey agentId firstId))) r.1 =
      some { sessionKey := mintSessionKey agentId firstId, createdAt := r.2 } := by
    simpa using hkey
  have httl2 : ¬(getTtlMs ttlEnv < now' - r.2) := by omega
  simp [lookupSessionKey, loadStoreSync, hkey2, httl2]

/-- Witness for C8: a three-request chain (P10 shape) in which requests 2
and 3 supply the previous response id; all three response ids resolve to
the first request's minted session key. -/
theorem session_chaining_witness :
    runChain none none "main" [] none [("r1", 10), ("r2", 20), ("r3", 30)] =
      [("r1", { sessionKey := "agent:main:responses-api:r1", createdAt := 10 }),
       ("r2", { sessionKey := "agent:main:responses-api:r1", createdAt := 20 }),
       ("r3", { sessionKey := "agent:main:responses-api:r1", createdAt := 30 })]
    ∧ lookupSessionKey none
        (some { version := 1,
                mappings :=
                  runChain none none "main" [] none [("r1", 10), ("r2", 20), ("r3", 30)] })
        "r3" 40 = some "agent:main:responses-api:r1"
    ∧ lookupSessionKey none
        (some { version := 1,
                mappings :=
                  runChain none none "main" [] none [("r1", 10), ("r2", 20), ("r3", 30)] })
        "r1" 40 = some "agent:main:responses-api:r1" := by
  have h := session_chaining none none "main" "r1" 10 [("r2", 20), ("r3", 30)]
    (by decide) (by decide) (by decide)
  exact ⟨h.1, h.2.1 ("r3", 30) (by decide) 40 (by decide),
    h.2.1 ("r1", 10) (by decide) 40 (by decide)⟩

end OpenClaw
